import Mathlib

/-!
Verification of the SO-ARM101-Open-Pose inverse-kinematics core.

Shallow embedding conventions:
* JavaScript IEEE doubles are modelled as exact real numbers; numeric literals
  become the corresponding rationals cast to the reals.
* Wall-clock values (message timestamps in milliseconds, the ISO string produced
  by toISOString) are threaded through as explicit parameters.
* The THREE.js scene graph is abstracted by a `Rig` record: the world position /
  world axis of a named node as a function of the joint-rotation state.  The
  concrete geometry comes from the GLB asset, which is data outside the
  repository's source files; every theorem below holds for an arbitrary rig.
* console logging and WebGL rendering have no effect on the modelled state and
  are omitted.
-/

namespace SOArm

open Classical

noncomputable section

/-- Degrees-to-radians factor, `const DEG2RAD = Math.PI / 180`. -/
def DEG2RAD : ℝ := Real.pi / 180

/-- Radians-to-degrees factor, `const RAD2DEG = 180 / Math.PI`. -/
def RAD2DEG : ℝ := 180 / Real.pi

/-- A 3-component vector (THREE.Vector3 with exact real components). -/
structure Vec3 where
  x : ℝ
  y : ℝ
  z : ℝ
deriving DecidableEq

namespace Vec3

/-- Componentwise subtraction, `new THREE.Vector3().subVectors(a, b)` /
`a.clone().sub(b)`. -/
def sub (a b : Vec3) : Vec3 := ⟨a.x - b.x, a.y - b.y, a.z - b.z⟩

/-- Componentwise addition. -/
def add (a b : Vec3) : Vec3 := ⟨a.x + b.x, a.y + b.y, a.z + b.z⟩

/-- `v.multiplyScalar(s)`. -/
def smul (s : ℝ) (v : Vec3) : Vec3 := ⟨s * v.x, s * v.y, s * v.z⟩

/-- `a.dot(b)`. -/
def dot (a b : Vec3) : ℝ := a.x * b.x + a.y * b.y + a.z * b.z

/-- `a.clone().cross(b)`. -/
def cross (a b : Vec3) : Vec3 :=
  ⟨a.y * b.z - a.z * b.y, a.z * b.x - a.x * b.z, a.x * b.y - a.y * b.x⟩

/-- `v.lengthSq()` = x*x + y*y + z*z. -/
def lengthSq (v : Vec3) : ℝ := v.x * v.x + v.y * v.y + v.z * v.z

/-- `v.length()` = sqrt(lengthSq). -/
def length (v : Vec3) : ℝ := Real.sqrt v.lengthSq

/-- `a.distanceTo(b)`: Euclidean distance. -/
def distanceTo (a b : Vec3) : ℝ := length (sub a b)

/-- The zero vector. -/
def zero : Vec3 := ⟨0, 0, 0⟩

theorem lengthSq_nonneg (v : Vec3) : 0 ≤ v.lengthSq := by
  unfold lengthSq
  have hx : 0 ≤ v.x * v.x := mul_self_nonneg _
  have hy : 0 ≤ v.y * v.y := mul_self_nonneg _
  have hz : 0 ≤ v.z * v.z := mul_self_nonneg _
  linarith

theorem length_zero : length zero = 0 := by
  unfold length lengthSq zero
  simp

end Vec3

/-- `clamp(x, lo, hi) = Math.max(lo, Math.min(hi, x))` (ik_solver_final.js and
geometric_solver.js use this exact shape; THREE.MathUtils.clamp is the same). -/
def clamp (x lo hi : ℝ) : ℝ := max lo (min hi x)

theorem clamp_mem (x lo hi : ℝ) (h : lo ≤ hi) : lo ≤ clamp x lo hi ∧ clamp x lo hi ≤ hi := by
  unfold clamp
  constructor
  · exact le_max_left _ _
  · exact max_le h (min_le_left _ _)

/-- `Math.atan2(y, x)` on exact reals (the JS signed-zero distinctions collapse
to the single real 0). -/
def jsAtan2 (y x : ℝ) : ℝ :=
  if 0 < x then Real.arctan (y / x)
  else if x < 0 then
    (if 0 ≤ y then Real.arctan (y / x) + Real.pi else Real.arctan (y / x) - Real.pi)
  else
    (if 0 < y then Real.pi / 2 else if y < 0 then -(Real.pi / 2) else 0)

/-- `a.angleTo(b)` from THREE.Vector3: arccos of the clamped normalized dot
product, with the zero-denominator guard returning pi/2. -/
def angleTo (a b : Vec3) : ℝ :=
  let denominator := Real.sqrt (a.lengthSq * b.lengthSq)
  if denominator = 0 then Real.pi / 2
  else Real.arccos (clamp (Vec3.dot a b / denominator) (-1) 1)

/-- JS `+(x.toFixed(3))`: rounding to three decimal places.  (`Number.toFixed`
rounds decimal-halfway cases away from zero while `round` here rounds them up;
the two agree everywhere a claim below evaluates this function.) -/
def toFixed3 (x : ℝ) : ℝ := (round (1000 * x) : ℤ) / 1000

/-- A JSON value, as produced by the solvers (only strings, numbers and objects
occur in their outputs). -/
inductive Json where
  | str : String → Json
  | num : ℝ → Json
  | obj : List (String × Json) → Json

/-- JS property access `j[k]` on a JSON value: `none` models `undefined`. -/
def jsonLookup (j : Json) (k : String) : Option Json :=
  match j with
  | .obj l => l.lookup k
  | _ => none

/-! ## Closed-form geometric solver (geometric_solver.js) -/

/-- The optional keypoints handed to the geometric solver (a missing member of
the JS keypoints object is `none`). -/
structure GeoKeypoints where
  shoulder : Option Vec3
  elbow : Option Vec3
  wrist : Option Vec3
  hand : Option Vec3

/-- The `limitsDeg` option object of geometric_solver.js: one optional
degree-range per joint. -/
structure GeoLimitsDeg where
  Base_Rotation : Option (ℝ × ℝ)
  Shoulder_Lift : Option (ℝ × ℝ)
  Elbow_Flex : Option (ℝ × ℝ)
  Wrist_Flex : Option (ℝ × ℝ)

/-- Default joint limits of geometric_solver.js (degrees). -/
def defaultGeoLimits : GeoLimitsDeg :=
  { Base_Rotation := some (-109, 109)
    Shoulder_Lift := some (0, 190)
    Elbow_Flex := some (-180, 0)
    Wrist_Flex := some (-170, 0) }

/-- `clampAngle(angle, limits)` of geometric_solver.js: identity when the
limits entry is absent, otherwise `Math.max(limits[0], Math.min(limits[1], angle))`. -/
def clampAngle (angle : ℝ) (limits : Option (ℝ × ℝ)) : ℝ :=
  match limits with
  | none => angle
  | some l => max l.1 (min l.2 angle)

/-- The command object returned by the geometric solver: the timestamp string
and the four joint angles exactly as emitted (already rounded by toFixed(3)). -/
structure GeoCmd where
  timestamp : String
  baseRotationY : ℝ
  shoulderLiftX : ℝ
  elbowFlexX : ℝ
  wristFlexX : ℝ

/-- The JSON shape of the geometric solver's return object (lines 84-97 of
geometric_solver.js). -/
def GeoCmd.toJson (c : GeoCmd) : Json :=
  .obj [("method", .str "set_joint_angles"), ("timestamp", .str c.timestamp),
        ("params", .obj [("units", .str "degrees"), ("mode", .str "follower"),
          ("joints", .obj [("Base_Rotation", .obj [("y", .num c.baseRotationY)]),
                           ("Shoulder_Lift", .obj [("x", .num c.shoulderLiftX)]),
                           ("Elbow_Flex", .obj [("x", .num c.elbowFlexX)]),
                           ("Wrist_Flex", .obj [("x", .num c.wristFlexX)])])])]

/-- `calculateJointAnglesFromPose(keypoints, options)` of geometric_solver.js.
`now` is the string `new Date().toISOString()` would produce. -/
def calculateJointAnglesFromPose (now : String) (keypoints : GeoKeypoints)
    (limitsDeg : GeoLimitsDeg) : Option GeoCmd :=
  match keypoints.shoulder, keypoints.elbow, keypoints.wrist, keypoints.hand with
  | some shoulder, some elbow, some wrist, some hand =>
    let shoulderToElbow := Vec3.sub elbow shoulder
    let elbowToWrist := Vec3.sub wrist elbow
    let wristToHand := Vec3.sub hand wrist
    let baseAngleRad := jsAtan2 (-shoulderToElbow.x) shoulderToElbow.z
    let baseAngleDeg := clampAngle (baseAngleRad * RAD2DEG) limitsDeg.Base_Rotation
    let horizontalDist :=
      Real.sqrt (shoulderToElbow.x * shoulderToElbow.x + shoulderToElbow.z * shoulderToElbow.z)
    let shoulderLiftRad := jsAtan2 shoulderToElbow.y horizontalDist
    let shoulderLiftDeg := clampAngle (shoulderLiftRad * RAD2DEG) limitsDeg.Shoulder_Lift
    let elbowAngleRad := Real.pi - angleTo shoulderToElbow elbowToWrist
    let elbowFlexDeg := clampAngle (-(elbowAngleRad * RAD2DEG)) limitsDeg.Elbow_Flex
    let wristAngleRad := Real.pi - angleTo elbowToWrist wristToHand
    let wristFlexDeg := clampAngle (-(wristAngleRad * RAD2DEG) + 95) limitsDeg.Wrist_Flex
    some { timestamp := now
           baseRotationY := toFixed3 baseAngleDeg
           shoulderLiftX := toFixed3 shoulderLiftDeg
           elbowFlexX := toFixed3 elbowFlexDeg
           wristFlexX := toFixed3 wristFlexDeg }
  | _, _, _, _ => none

/-- The angle between two positive multiples of one nonzero vector is zero. -/
theorem angleTo_smul_smul (d : Vec3) (a b : ℝ) (ha : 0 < a) (hb : 0 < b)
    (hd : d.lengthSq ≠ 0) : angleTo (Vec3.smul a d) (Vec3.smul b d) = 0 := by
  have hL : 0 < d.lengthSq := lt_of_le_of_ne (Vec3.lengthSq_nonneg d) (Ne.symm hd)
  have hlsa : (Vec3.smul a d).lengthSq = a ^ 2 * d.lengthSq := by
    unfold Vec3.lengthSq Vec3.smul; ring
  have hlsb : (Vec3.smul b d).lengthSq = b ^ 2 * d.lengthSq := by
    unfold Vec3.lengthSq Vec3.smul; ring
  have hdot : Vec3.dot (Vec3.smul a d) (Vec3.smul b d) = a * b * d.lengthSq := by
    unfold Vec3.dot Vec3.smul Vec3.lengthSq; ring
  have habL : 0 < a * b * d.lengthSq := by positivity
  have hden : Real.sqrt ((Vec3.smul a d).lengthSq * (Vec3.smul b d).lengthSq)
      = a * b * d.lengthSq := by
    rw [hlsa, hlsb, show a ^ 2 * d.lengthSq * (b ^ 2 * d.lengthSq) = (a * b * d.lengthSq) ^ 2 by
      ring]
    exact Real.sqrt_sq habL.le
  unfold angleTo
  rw [hden, if_neg (ne_of_gt habL), hdot, div_self (ne_of_gt habL)]
  have hclamp : clamp 1 (-1) 1 = 1 := by unfold clamp; norm_num
  rw [hclamp, Real.arccos_one]

/-- `pi * RAD2DEG = 180`. -/
theorem pi_mul_RAD2DEG : Real.pi * RAD2DEG = 180 := by
  unfold RAD2DEG
  field_simp

/-- Rounding an integer-valued real to three decimals is the identity. -/
theorem toFixed3_intCast (n : ℤ) : toFixed3 ((n : ℝ)) = (n : ℝ) := by
  unfold toFixed3
  rw [show (1000 : ℝ) * (n : ℝ) = ((1000 * n : ℤ) : ℝ) by push_cast; ring, round_intCast]
  push_cast
  field_simp

/-- C7: the geometric solver returns a result precisely when all four
keypoints are present, and that result always carries all four joint entries
in the full fixed command shape, never a partial command. -/
theorem geo_missing_keypoint (now : String) (kp : GeoKeypoints) (lims : GeoLimitsDeg) :
    ((kp.shoulder = none ∨ kp.elbow = none ∨ kp.wrist = none ∨ kp.hand = none) →
      calculateJointAnglesFromPose now kp lims = none) ∧
    (∀ s e w h, kp = ⟨some s, some e, some w, some h⟩ →
      ∃ cmd : GeoCmd, calculateJointAnglesFromPose now kp lims = some cmd ∧
        cmd.toJson = Json.obj
          [("method", .str "set_joint_angles"), ("timestamp", .str now),
           ("params", .obj [("units", .str "degrees"), ("mode", .str "follower"),
             ("joints", .obj [("Base_Rotation", .obj [("y", .num cmd.baseRotationY)]),
                              ("Shoulder_Lift", .obj [("x", .num cmd.shoulderLiftX)]),
                              ("Elbow_Flex", .obj [("x", .num cmd.elbowFlexX)]),
                              ("Wrist_Flex", .obj [("x", .num cmd.wristFlexX)])])])]) := by
  constructor
  · intro h
    obtain ⟨s, e, w, hd⟩ := kp
    unfold calculateJointAnglesFromPose
    rcases h with h | h | h | h <;> simp_all
  · rintro s e w h rfl
    refine ⟨_, rfl, ?_⟩
    unfold GeoCmd.toJson
    rfl

/-- C7 witness: a concrete missing-hand input yields no result, and a concrete
complete input yields a full command. -/
theorem geo_missing_keypoint_witness :
    (calculateJointAnglesFromPose "t0"
      ⟨some ⟨0, 0, 0⟩, some ⟨0, 0, 1⟩, some ⟨0, 0, 2⟩, none⟩ defaultGeoLimits = none) ∧
    (∃ cmd : GeoCmd, calculateJointAnglesFromPose "t0"
      ⟨some ⟨0, 0, 0⟩, some ⟨0, 0, 1⟩, some ⟨0, 0, 2⟩, some ⟨0, 0, 3⟩⟩ defaultGeoLimits
        = some cmd) := by
  constructor
  · exact (geo_missing_keypoint "t0" _ defaultGeoLimits).1 (by simp)
  · obtain ⟨cmd, hc, -⟩ :=
      (geo_missing_keypoint "t0"
        ⟨some ⟨0, 0, 0⟩, some ⟨0, 0, 1⟩, some ⟨0, 0, 2⟩, some ⟨0, 0, 3⟩⟩ defaultGeoLimits).2
        ⟨0, 0, 0⟩ ⟨0, 0, 1⟩ ⟨0, 0, 2⟩ ⟨0, 0, 3⟩ rfl
    exact ⟨cmd, hc⟩

/-- Subtracting a point from its translate recovers the step vector. -/
theorem sub_add_smul (p : Vec3) (t : ℝ) (d : Vec3) :
    Vec3.sub (Vec3.add p (Vec3.smul t d)) p = Vec3.smul t d := by
  unfold Vec3.sub Vec3.add Vec3.smul
  simp

/-- C8: four collinear keypoints with zero bend at elbow and wrist (each
segment a positive multiple of one direction) make the geometric solver emit
the straight-elbow reference angle -180 and the calibrated neutral wrist
angle -180 + 95 = -85, under the default limits. -/
theorem geo_straight_arm (now : String) (sh d : Vec3) (a b c : ℝ)
    (ha : 0 < a) (hb : 0 < b) (hc : 0 < c) (hd : d.lengthSq ≠ 0) :
    (calculateJointAnglesFromPose now
        ⟨some sh, some (Vec3.add sh (Vec3.smul a d)),
         some (Vec3.add (Vec3.add sh (Vec3.smul a d)) (Vec3.smul b d)),
         some (Vec3.add (Vec3.add (Vec3.add sh (Vec3.smul a d)) (Vec3.smul b d))
           (Vec3.smul c d))⟩
        defaultGeoLimits).map (fun cmd => (cmd.elbowFlexX, cmd.wristFlexX))
      = some (-180, -85) := by
  have hse : Vec3.sub (Vec3.add sh (Vec3.smul a d)) sh = Vec3.smul a d :=
    sub_add_smul sh a d
  have hew : Vec3.sub (Vec3.add (Vec3.add sh (Vec3.smul a d)) (Vec3.smul b d))
      (Vec3.add sh (Vec3.smul a d)) = Vec3.smul b d := sub_add_smul _ b d
  have hwh : Vec3.sub (Vec3.add (Vec3.add (Vec3.add sh (Vec3.smul a d)) (Vec3.smul b d))
        (Vec3.smul c d))
      (Vec3.add (Vec3.add sh (Vec3.smul a d)) (Vec3.smul b d)) = Vec3.smul c d :=
    sub_add_smul _ c d
  have hang1 : angleTo (Vec3.smul a d) (Vec3.smul b d) = 0 :=
    angleTo_smul_smul d a b ha hb hd
  have hang2 : angleTo (Vec3.smul b d) (Vec3.smul c d) = 0 :=
    angleTo_smul_smul d b c hb hc hd
  unfold calculateJointAnglesFromPose
  rw [show (⟨some sh, some (Vec3.add sh (Vec3.smul a d)),
      some (Vec3.add (Vec3.add sh (Vec3.smul a d)) (Vec3.smul b d)),
      some (Vec3.add (Vec3.add (Vec3.add sh (Vec3.smul a d)) (Vec3.smul b d))
        (Vec3.smul c d))⟩ : GeoKeypoints).shoulder = some sh from rfl]
  simp only [hse, hew, hwh, hang1, hang2, sub_zero, Option.map_some]
  have helbow : clampAngle (-(Real.pi * RAD2DEG)) defaultGeoLimits.Elbow_Flex = -180 := by
    rw [pi_mul_RAD2DEG]
    unfold clampAngle defaultGeoLimits
    norm_num
  have hwrist : clampAngle (-(Real.pi * RAD2DEG) + 95) defaultGeoLimits.Wrist_Flex = -85 := by
    rw [pi_mul_RAD2DEG]
    unfold clampAngle defaultGeoLimits
    norm_num
  rw [helbow, hwrist]
  rw [show (-180 : ℝ) = ((-180 : ℤ) : ℝ) by norm_num, toFixed3_intCast]
  rw [show (-85 : ℝ) = ((-85 : ℤ) : ℝ) by norm_num, toFixed3_intCast]
  simp

/-- C8 witness: a concrete straight arm along the z-axis gets elbow -180 and
wrist -85. -/
theorem geo_straight_arm_witness :
    (0 : ℝ) < 1 ∧ (⟨0, 0, 1⟩ : Vec3).lengthSq ≠ 0 ∧
    (calculateJointAnglesFromPose "t0"
        ⟨some ⟨0, 0, 0⟩,
         some (Vec3.add ⟨0, 0, 0⟩ (Vec3.smul 1 ⟨0, 0, 1⟩)),
         some (Vec3.add (Vec3.add ⟨0, 0, 0⟩ (Vec3.smul 1 ⟨0, 0, 1⟩)) (Vec3.smul 1 ⟨0, 0, 1⟩)),
         some (Vec3.add (Vec3.add (Vec3.add ⟨0, 0, 0⟩ (Vec3.smul 1 ⟨0, 0, 1⟩))
           (Vec3.smul 1 ⟨0, 0, 1⟩)) (Vec3.smul 1 ⟨0, 0, 1⟩))⟩
        defaultGeoLimits).map (fun cmd => (cmd.elbowFlexX, cmd.wristFlexX))
      = some (-180, -85) :=
  ⟨by norm_num, by unfold Vec3.lengthSq; norm_num,
    geo_straight_arm "t0" ⟨0, 0, 0⟩ ⟨0, 0, 1⟩ 1 1 1 (by norm_num) (by norm_num) (by norm_num)
      (by unfold Vec3.lengthSq; norm_num)⟩

/-! ## Scene state and rig abstraction -/

/-- One of the three local rotation axes (the axis characters of the chain). -/
inductive Axis where
  | x
  | y
  | z
deriving DecidableEq

/-- The JSON key of an axis. -/
def Axis.char : Axis → String
  | .x => "x"
  | .y => "y"
  | .z => "z"

/-- The mutable rotation state of the scene: each named node's Euler rotation
components (`obj.rotation.x/y/z`). -/
def JState := String → Axis → ℝ

/-- Write one rotation component of one named node. -/
def setRot (σ : JState) (name : String) (ax : Axis) (v : ℝ) : JState :=
  fun n a => if n = name ∧ a = ax then v else σ n a

/-- Abstraction of the loaded THREE scene graph.  `pos`/`axisW` are
`updateMatrixWorld` + `getWorldPosition` / `getWorldAxis` as functions of the
rotation state; the actual geometry is fixed by the GLB asset, which is not
part of the repository source, so it stays abstract.  `hasNode` is
`root.getObjectByName(name) !== undefined`. -/
structure Rig where
  pos : JState → String → Vec3
  axisW : JState → String → Vec3
  hasNode : String → Bool

/-! ## Gauss-Jordan matrix inversion (invertMatrix of ik_solver_final.js) -/

/-- A square matrix of reals, row-major like the Float64Array of the source. -/
abbrev Mat (n : ℕ) := Fin n → Fin n → ℝ

/-- The identity matrix (the initial `inv` accumulator). -/
def idMat (n : ℕ) : Mat n := fun r c => if r = c then 1 else 0

/-- The partial-pivot search of invertMatrix: start from the diagonal entry and
take any strictly larger magnitude found in rows below it, keeping the first
maximum.  Returns (pivotRow, pivotVal). -/
def pivotSearch {n : ℕ} (a : Mat n) (col : Fin n) : Fin n × ℝ :=
  (List.finRange n).foldl
    (fun best r => if col < r ∧ best.2 < |a r col| then (r, |a r col|) else best)
    (col, |a col col|)

/-- Swap two rows of a matrix. -/
def swapRows {n : ℕ} (m : Mat n) (i j : Fin n) : Mat n :=
  fun r c => if r = i then m j c else if r = j then m i c else m r c

/-- One column step of the Gauss-Jordan elimination: pivot search with the
1e-12 singularity guard, row swap, pivot-row normalization, and elimination of
the other rows (skipping factors below 1e-15), applied to the work matrix and
the inverse accumulator in lockstep. -/
def gjColumn {n : ℕ} (st : Mat n × Mat n) (col : Fin n) : Option (Mat n × Mat n) :=
  let p := pivotSearch st.1 col
  if p.2 < 1e-12 then none
  else
    let a1 := if p.1 = col then st.1 else swapRows st.1 col p.1
    let inv1 := if p.1 = col then st.2 else swapRows st.2 col p.1
    let piv := a1 col col
    let a2 : Mat n := fun r c => if r = col then a1 r c / piv else a1 r c
    let inv2 : Mat n := fun r c => if r = col then inv1 r c / piv else inv1 r c
    let a3 : Mat n := fun r c =>
      if r = col then a2 r c
      else if |a2 r col| < 1e-15 then a2 r c else a2 r c - a2 r col * a2 col c
    let inv3 : Mat n := fun r c =>
      if r = col then inv2 r c
      else if |a2 r col| < 1e-15 then inv2 r c else inv2 r c - a2 r col * inv2 col c
    some (a3, inv3)

/-- `invertMatrix(mat, n)`: Gauss-Jordan elimination over all columns; `none`
models the `null` returned when a pivot magnitude falls below 1e-12. -/
def invertMatrix {n : ℕ} (mat : Mat n) : Option (Mat n) :=
  ((List.finRange n).foldlM gjColumn (mat, idMat n)).map Prod.snd

/-! ## Coupled 3-target solver (solveCoupled3TargetIKToJson) -/

/-- One Jacobian column: the three weighted partial velocities of the tracked
points with respect to one joint. -/
structure JCol where
  JA : Vec3
  JB : Vec3
  JC : Vec3

/-- The column as a stacked 9-vector [JA; JB; JC]. -/
def colVec (c : JCol) : Fin 9 → ℝ :=
  ![c.JA.x, c.JA.y, c.JA.z, c.JB.x, c.JB.y, c.JB.z, c.JC.x, c.JC.y, c.JC.z]

/-- `dq_i = col_i . v` written out over the nine components as in the source. -/
def dot9 (c : JCol) (v : Fin 9 → ℝ) : ℝ :=
  c.JA.x * v 0 + c.JA.y * v 1 + c.JA.z * v 2 +
  c.JB.x * v 3 + c.JB.y * v 4 + c.JB.z * v 5 +
  c.JC.x * v 6 + c.JC.y * v 7 + c.JC.z * v 8

/-- One entry of the solver's chain option: GLB node name, driven axis, JSON key. -/
structure ChainJoint where
  glb : String
  axis : Axis
  json : String
deriving DecidableEq

/-- The default chain of solveCoupled3TargetIKToJson. -/
def defaultChain : List ChainJoint :=
  [⟨"Base_Rotation", .y, "base_rotation"⟩, ⟨"Shoulder_Lift", .x, "shoulder_lift"⟩,
   ⟨"Elbow_Flex", .x, "elbow_flex"⟩, ⟨"Wrist_Flex", .x, "wrist_flex"⟩]

/-- The default per-joint step caps (radians). -/
def defaultMaxStepRadPerJoint : String → Option ℝ := fun glb =>
  if glb = "Base_Rotation" then some 2
  else if glb = "Shoulder_Lift" then some 0.15
  else if glb = "Elbow_Flex" then some 0.15
  else if glb = "Wrist_Flex" then some 0.12
  else none

/-- The default joint limits in degrees, keyed by GLB name. -/
def defaultLimitsDeg : String → Option (ℝ × ℝ) := fun glb =>
  if glb = "Base_Rotation" then some (-109, 109)
  else if glb = "Shoulder_Lift" then some (0, 190)
  else if glb = "Elbow_Flex" then some (-180, 0)
  else if glb = "Wrist_Flex" then some (-170, 0)
  else none

/-- The destructured options object of solveCoupled3TargetIKToJson with its
default values. -/
structure SolveOptions where
  chain : List ChainJoint := defaultChain
  elbowPointName : String := "Elbow_Point"
  wristPointName : String := "Wrist_Point"
  eePointName : String := "EndEffector"
  wA : ℝ := 1.4
  wB : ℝ := 1.3
  wC : ℝ := 0.5
  iterations : ℕ := 40
  tolerance : ℝ := 0.005
  lambda : ℝ := 0.2
  stepScale : ℝ := 0.7
  maxStepRad : ℝ := 0.15
  maxStepRadPerJoint : String → Option ℝ := defaultMaxStepRadPerJoint
  limitsDeg : String → Option (ℝ × ℝ) := defaultLimitsDeg

/-- Calling the solver with an empty options object. -/
def defaultSolveOptions : SolveOptions := {}

/-- `maxStepRadPerJoint[j.glb] || maxStepRad`: JS `||` also replaces a
present-but-zero cap with the global fallback. -/
def jointMaxStep (o : SolveOptions) (glb : String) : ℝ :=
  match o.maxStepRadPerJoint glb with
  | some v => if v = 0 then o.maxStepRad else v
  | none => o.maxStepRad

/-- The `limRad` helper: the optional degree limits converted to radians. -/
def limRad (o : SolveOptions) (glb : String) : Option (ℝ × ℝ) :=
  match o.limitsDeg glb with
  | none => none
  | some d => some (d.1 * DEG2RAD, d.2 * DEG2RAD)

/-- The three world-space target points of one solve. -/
structure Targets3 where
  targetA : Vec3
  targetB : Vec3
  targetC : Vec3

/-- The aggregate residual of one iteration (line 168 of the source): maximum
over the three targets of the weighted error norm divided by
`Math.max(weight, 1e-9)`. -/
def iterResidual (o : SolveOptions) (eA eB eC : Vec3) : ℝ :=
  max (eA.length / max o.wA 1e-9) (max (eB.length / max o.wB 1e-9) (eC.length / max o.wC 1e-9))

/-- The Jacobian column of one joint: `w x (p - p_i)` per target, scaled by the
target weights. -/
def colOf (rig : Rig) (o : SolveOptions) (σ : JState) (pA pB pC : Vec3) (j : ChainJoint) : JCol :=
  let pj := rig.pos σ j.glb
  let w := rig.axisW σ j.glb
  { JA := Vec3.smul o.wA (Vec3.cross w (Vec3.sub pA pj))
    JB := Vec3.smul o.wB (Vec3.cross w (Vec3.sub pB pj))
    JC := Vec3.smul o.wC (Vec3.cross w (Vec3.sub pC pj)) }

/-- `A = sum_i col_i col_i^T + lambda^2 I` (9x9). -/
def buildA (o : SolveOptions) (cols : List JCol) : Mat 9 :=
  fun r k => (cols.map (fun c => colVec c r * colVec c k)).sum +
    (if r = k then o.lambda * o.lambda else 0)

/-- The stacked 9-dimensional weighted error vector. -/
def e9vec (eA eB eC : Vec3) : Fin 9 → ℝ :=
  ![eA.x, eA.y, eA.z, eB.x, eB.y, eB.z, eC.x, eC.y, eC.z]

/-- `v = invA * e`. -/
def v9vec (invA : Mat 9) (e : Fin 9 → ℝ) : Fin 9 → ℝ :=
  fun r => ∑ k, invA r k * e k

/-- The per-joint update of one iteration (lines 238-264): scale the solved
step, invert its sign for Base_Rotation, clamp it to the per-joint cap, add it
to the current rotation, clamp the result to the radian limits, and write it
back. -/
def updateJoint (o : SolveOptions) (v9 : Fin 9 → ℝ) (σ : JState) (jc : ChainJoint × JCol) :
    JState :=
  let j := jc.1
  let dq0 := dot9 jc.2 v9
  let dq1 := dq0 * o.stepScale
  let dq2 := if j.glb = "Base_Rotation" then -dq1 else dq1
  let ms := jointMaxStep o j.glb
  let dq3 := clamp dq2 (-ms) ms
  let next0 := σ j.glb j.axis + dq3
  let next := match limRad o j.glb with
    | some l => clamp next0 l.1 l.2
    | none => next0
  setRot σ j.glb j.axis next

/-- All per-joint updates of one iteration, applied in chain order. -/
def applyUpdates (o : SolveOptions) (v9 : Fin 9 → ℝ) (jcs : List (ChainJoint × JCol))
    (σ : JState) : JState :=
  jcs.foldl (updateJoint o v9) σ

/-- `eA = targetA.clone().sub(pA).multiplyScalar(wA)` at the start of one
iteration. -/
def errA (rig : Rig) (o : SolveOptions) (pAName : String) (tg : Targets3) (σ : JState) : Vec3 :=
  Vec3.smul o.wA (Vec3.sub tg.targetA (rig.pos σ pAName))

/-- The weighted wrist error vector of one iteration. -/
def errB (rig : Rig) (o : SolveOptions) (pBName : String) (tg : Targets3) (σ : JState) : Vec3 :=
  Vec3.smul o.wB (Vec3.sub tg.targetB (rig.pos σ pBName))

/-- The weighted end-effector error vector of one iteration. -/
def errC (rig : Rig) (o : SolveOptions) (pCName : String) (tg : Targets3) (σ : JState) : Vec3 :=
  Vec3.smul o.wC (Vec3.sub tg.targetC (rig.pos σ pCName))

/-- The aggregate residual tested against the tolerance at the start of one
iteration. -/
def residualAt (rig : Rig) (o : SolveOptions) (pAName pBName pCName : String) (tg : Targets3)
    (σ : JState) : ℝ :=
  iterResidual o (errA rig o pAName tg σ) (errB rig o pBName tg σ) (errC rig o pCName tg σ)

/-- The Jacobian columns built in one iteration. -/
def colsAt (rig : Rig) (o : SolveOptions) (pAName pBName pCName : String)
    (joints : List ChainJoint) (σ : JState) : List JCol :=
  joints.map (colOf rig o σ (rig.pos σ pAName) (rig.pos σ pBName) (rig.pos σ pCName))

/-- One iteration of the solver loop: `none` means the loop breaks here
(residual below tolerance, or singular matrix), `some` carries the updated
state into the next iteration. -/
def iterateOnce (rig : Rig) (o : SolveOptions) (pAName pBName pCName : String)
    (joints : List ChainJoint) (tg : Targets3) (σ : JState) : Option JState :=
  if residualAt rig o pAName pBName pCName tg σ < o.tolerance then none
  else
    match invertMatrix (buildA o (colsAt rig o pAName pBName pCName joints σ)) with
    | none => none
    | some invA =>
      some (applyUpdates o
        (v9vec invA
          (e9vec (errA rig o pAName tg σ) (errB rig o pBName tg σ) (errC rig o pCName tg σ)))
        (joints.zip (colsAt rig o pAName pBName pCName joints σ)) σ)

/-- The bounded iteration loop (`for (let it = 0; it < iterations; it++)`). -/
def runIters (rig : Rig) (o : SolveOptions) (pAName pBName pCName : String)
    (joints : List ChainJoint) (tg : Targets3) : ℕ → JState → JState
  | 0, σ => σ
  | fuel + 1, σ =>
    match iterateOnce rig o pAName pBName pCName joints tg σ with
    | none => σ
    | some σ1 => runIters rig o pAName pBName pCName joints tg fuel σ1

/-- The output JSON of the coupled solver (lines 267-283): degrees, rounded to
three decimals, plus the constant gripper passthrough entry. -/
def emit (now : String) (joints : List ChainJoint) (σ : JState) : Json :=
  .obj [("method", .str "set_joint_angles"), ("timestamp", .str now),
        ("params", .obj [("units", .str "degrees"), ("mode", .str "follower"),
          ("joints", .obj (joints.map (fun j =>
              (j.json, Json.obj [(j.axis.char, .num (toFixed3 (σ j.glb j.axis * RAD2DEG)))]))
            ++ [("gripper", Json.obj [("z", .num 0)])]))])]

/-- `root.getObjectByName(primary) || root.getObjectByName(fallback)`. -/
def resolvePoint (rig : Rig) (primary fallback : String) : Option String :=
  if rig.hasNode primary then some primary
  else if rig.hasNode fallback then some fallback
  else none

/-- Resolve every chain joint by name, failing on the first missing node. -/
def resolveJoints (rig : Rig) : List ChainJoint → Option (List ChainJoint)
  | [] => some []
  | j :: rest =>
    if rig.hasNode j.glb then (resolveJoints rig rest).map (List.cons j) else none

/-- `solveCoupled3TargetIKToJson(root, targets, options)`: resolve the tracked
point nodes (with the Elbow_Flex / Wrist_Flex fallbacks) and the chain joints,
run the bounded iteration loop, and emit the JSON command along with the final
scene rotation state.  `Except.error` models the thrown errors. -/
def solveCoupled3TargetIKToJson (rig : Rig) (now : String) (σ : JState) (tg : Targets3)
    (o : SolveOptions) : Except String (Json × JState) :=
  match resolvePoint rig o.elbowPointName "Elbow_Flex",
        resolvePoint rig o.wristPointName "Wrist_Flex",
        (if rig.hasNode o.eePointName then some o.eePointName else none) with
  | some pa, some pb, some pc =>
    match resolveJoints rig o.chain with
    | some joints =>
      .ok (emit now joints (runIters rig o pa pb pc joints tg o.iterations σ),
           runIters rig o pa pb pc joints tg o.iterations σ)
    | none => .error "Missing joint node"
  | _, _, _ => .error "Missing point nodes (elbow/wrist/ee)"

/-! ## Basic lemmas about the solver loop -/

theorem foldl_id {α β : Type} {f : β → α → β} {b : β} (h : ∀ a, f b a = b) (l : List α) :
    l.foldl f b = b := by
  induction l with
  | nil => rfl
  | cons a l ih => rw [List.foldl_cons, h a, ih]

theorem resolveJoints_eq_self {rig : Rig} : ∀ {l js : List ChainJoint},
    resolveJoints rig l = some js → js = l := by
  intro l
  induction l with
  | nil => intro js h; simpa [resolveJoints] using h.symm
  | cons j rest ih =>
    intro js h
    by_cases hj : rig.hasNode j.glb
    · simp only [resolveJoints, hj, if_true, Option.map_eq_some'] at h
      obtain ⟨js0, h0, rfl⟩ := h
      rw [ih h0]
    · simp [resolveJoints, hj] at h

/-- Successful solves are fully characterized by the resolved names, the loop
result, and the emitted JSON. -/
theorem solve_ok_elim {rig : Rig} {now : String} {σ : JState} {tg : Targets3}
    {o : SolveOptions} {cmd : Json} {σ1 : JState}
    (h : solveCoupled3TargetIKToJson rig now σ tg o = .ok (cmd, σ1)) :
    ∃ pa pb pc, resolvePoint rig o.elbowPointName "Elbow_Flex" = some pa ∧
      resolvePoint rig o.wristPointName "Wrist_Flex" = some pb ∧
      (if rig.hasNode o.eePointName then some o.eePointName else none) = some pc ∧
      resolveJoints rig o.chain = some o.chain ∧
      σ1 = runIters rig o pa pb pc o.chain tg o.iterations σ ∧
      cmd = emit now o.chain σ1 := by
  unfold solveCoupled3TargetIKToJson at h
  split at h
  case h_2 => cases h
  next pa pb pc hpa hpb hpc =>
    split at h
    case h_2 => cases h
    next js hjs =>
      simp only [Except.ok.injEq, Prod.mk.injEq] at h
      obtain ⟨hcmd, hσ⟩ := h
      have hjs' : js = o.chain := resolveJoints_eq_self hjs
      subst hjs'
      refine ⟨pa, pb, pc, hpa, hpb, hpc, hjs, hσ.symm, ?_⟩
      rw [← hcmd, ← hσ]

/-- Writing one node's rotation leaves every other node unchanged. -/
theorem setRot_ne {σ : JState} {name : String} {ax : Axis} {v : ℝ} {n : String}
    (h : n ≠ name) (a : Axis) : setRot σ name ax v n a = σ n a := by
  unfold setRot
  rw [if_neg]
  intro hc
  exact h hc.1

/-- A single joint update leaves every node outside the chain untouched. -/
theorem updateJoint_confine {o : SolveOptions} {v9 : Fin 9 → ℝ} {σ : JState}
    {jc : ChainJoint × JCol} {n : String} (h : jc.1.glb ≠ n) (a : Axis) :
    updateJoint o v9 σ jc n a = σ n a :=
  setRot_ne (fun e => h e.symm) a

theorem applyUpdates_confine {o : SolveOptions} {v9 : Fin 9 → ℝ} {n : String}
    (jcs : List (ChainJoint × JCol)) (h : ∀ jc ∈ jcs, jc.1.glb ≠ n) :
    ∀ (σ : JState) (a : Axis), applyUpdates o v9 jcs σ n a = σ n a := by
  induction jcs with
  | nil => intro σ a; rfl
  | cons jc rest ih =>
    intro σ a
    unfold applyUpdates at *
    rw [List.foldl_cons, ih (fun x hx => h x (List.mem_cons_of_mem _ hx)),
      updateJoint_confine (h jc (List.mem_cons_self _ _)) a]

theorem iterateOnce_confine {rig : Rig} {o : SolveOptions} {pa pb pc : String}
    {joints : List ChainJoint} {tg : Targets3} {σ σ1 : JState} {n : String}
    (h : iterateOnce rig o pa pb pc joints tg σ = some σ1)
    (hn : ∀ j ∈ joints, j.glb ≠ n) (a : Axis) : σ1 n a = σ n a := by
  unfold iterateOnce at h
  by_cases hconv : residualAt rig o pa pb pc tg σ < o.tolerance
  · rw [if_pos hconv] at h; cases h
  rw [if_neg hconv] at h
  split at h
  · cases h
  · simp only [Option.some.injEq] at h
    subst h
    refine applyUpdates_confine _ ?_ σ a
    intro jc hjc
    obtain ⟨j, c⟩ := jc
    exact hn j (List.of_mem_zip hjc).1

theorem runIters_confine {rig : Rig} {o : SolveOptions} {pa pb pc : String}
    {joints : List ChainJoint} {tg : Targets3} {n : String}
    (hn : ∀ j ∈ joints, j.glb ≠ n) :
    ∀ (fuel : ℕ) (σ : JState) (a : Axis),
      runIters rig o pa pb pc joints tg fuel σ n a = σ n a := by
  intro fuel
  induction fuel with
  | zero => intro σ a; rfl
  | succ f ih =>
    intro σ a
    unfold runIters
    rcases hstep : iterateOnce rig o pa pb pc joints tg σ with _ | σ1
    · rfl
    · exact (ih σ1 a).trans (iterateOnce_confine hstep hn a)

/-! ## The joint-limit invariant of the iteration loop -/

theorem DEG2RAD_pos : 0 < DEG2RAD := by
  unfold DEG2RAD
  exact div_pos Real.pi_pos (by norm_num)

theorem RAD2DEG_pos : 0 < RAD2DEG := by
  unfold RAD2DEG
  exact div_pos (by norm_num) Real.pi_pos

/-- Reading back the component just written by `setRot`. -/
theorem setRot_eq {σ : JState} {name : String} {ax : Axis} {v : ℝ} :
    setRot σ name ax v name ax = v := by
  unfold setRot
  rw [if_pos ⟨rfl, rfl⟩]

/-- Reading any other component after `setRot`. -/
theorem setRot_ne2 {σ : JState} {name : String} {ax : Axis} {v : ℝ} {n : String} {a : Axis}
    (h : ¬(n = name ∧ a = ax)) : setRot σ name ax v n a = σ n a := by
  unfold setRot
  rw [if_neg h]

/-- The limits invariant: every chain joint with configured limits has its
driven rotation inside the radian range. -/
def InLimits (o : SolveOptions) (joints : List ChainJoint) (σ : JState) : Prop :=
  ∀ j ∈ joints, ∀ lo hi, o.limitsDeg j.glb = some (lo, hi) →
    lo * DEG2RAD ≤ σ j.glb j.axis ∧ σ j.glb j.axis ≤ hi * DEG2RAD

theorem updateJoint_preserves {o : SolveOptions} {joints : List ChainJoint}
    {v9 : Fin 9 → ℝ} {σ : JState} (jc : ChainJoint × JCol)
    (hw : ∀ g lo hi, o.limitsDeg g = some (lo, hi) → lo ≤ hi)
    (h : InLimits o joints σ) : InLimits o joints (updateJoint o v9 σ jc) := by
  intro j hj lo hi hlim
  by_cases he : j.glb = jc.1.glb ∧ j.axis = jc.1.axis
  · have hval : updateJoint o v9 σ jc j.glb j.axis =
        clamp (σ jc.1.glb jc.1.axis +
            clamp (if jc.1.glb = "Base_Rotation" then -(dot9 jc.2 v9 * o.stepScale)
                else dot9 jc.2 v9 * o.stepScale)
              (-(jointMaxStep o jc.1.glb)) (jointMaxStep o jc.1.glb))
          (lo * DEG2RAD) (hi * DEG2RAD) := by
      rw [he.1, he.2]
      unfold updateJoint
      have hlr : limRad o jc.1.glb = some (lo * DEG2RAD, hi * DEG2RAD) := by
        unfold limRad
        rw [he.1] at hlim
        rw [hlim]
      rw [hlr]
      exact setRot_eq
    rw [hval]
    exact clamp_mem _ _ _
      (mul_le_mul_of_nonneg_right (hw j.glb lo hi hlim) DEG2RAD_pos.le)
  · have hval : updateJoint o v9 σ jc j.glb j.axis = σ j.glb j.axis := setRot_ne2 he
    rw [hval]
    exact h j hj lo hi hlim

theorem applyUpdates_preserves {o : SolveOptions} {joints : List ChainJoint} {v9 : Fin 9 → ℝ}
    (hw : ∀ g lo hi, o.limitsDeg g = some (lo, hi) → lo ≤ hi) :
    ∀ (jcs : List (ChainJoint × JCol)) (σ : JState),
      InLimits o joints σ → InLimits o joints (applyUpdates o v9 jcs σ) := by
  intro jcs
  induction jcs with
  | nil => intro σ h; exact h
  | cons jc rest ih =>
    intro σ h
    unfold applyUpdates at *
    rw [List.foldl_cons]
    exact ih _ (updateJoint_preserves jc hw h)

theorem iterateOnce_preserves {rig : Rig} {o : SolveOptions} {pa pb pc : String}
    {joints : List ChainJoint} {tg : Targets3} {σ σ1 : JState}
    (hw : ∀ g lo hi, o.limitsDeg g = some (lo, hi) → lo ≤ hi)
    (hstep : iterateOnce rig o pa pb pc joints tg σ = some σ1)
    (h : InLimits o joints σ) : InLimits o joints σ1 := by
  unfold iterateOnce at hstep
  by_cases hconv : residualAt rig o pa pb pc tg σ < o.tolerance
  · rw [if_pos hconv] at hstep; cases hstep
  rw [if_neg hconv] at hstep
  split at hstep
  · cases hstep
  · simp only [Option.some.injEq] at hstep
    subst hstep
    exact applyUpdates_preserves hw _ σ h

theorem runIters_preserves {rig : Rig} {o : SolveOptions} {pa pb pc : String}
    {joints : List ChainJoint} {tg : Targets3}
    (hw : ∀ g lo hi, o.limitsDeg g = some (lo, hi) → lo ≤ hi) :
    ∀ (fuel : ℕ) (σ : JState), InLimits o joints σ →
      InLimits o joints (runIters rig o pa pb pc joints tg fuel σ) := by
  intro fuel
  induction fuel with
  | zero => intro σ h; exact h
  | succ f ih =>
    intro σ h
    unfold runIters
    rcases hstep : iterateOnce rig o pa pb pc joints tg σ with _ | σ1
    · exact h
    · exact ih σ1 (iterateOnce_preserves hw hstep h)

/-- Monotonicity of banker-free rounding. -/
theorem round_mono_real {x y : ℝ} (h : x ≤ y) : round x ≤ round y := by
  rw [round_eq, round_eq]
  exact Int.floor_mono (by linarith)

/-- Rounding to three decimals keeps a value inside a range whose endpoints are
integer multiples of one thousandth. -/
theorem toFixed3_mem (m k : ℤ) {x lo hi : ℝ} (hm : (m : ℝ) = 1000 * lo)
    (hk : (k : ℝ) = 1000 * hi) (h1 : lo ≤ x) (h2 : x ≤ hi) :
    lo ≤ toFixed3 x ∧ toFixed3 x ≤ hi := by
  unfold toFixed3
  have hlo : m ≤ round (1000 * x) := by
    calc m = round ((m : ℝ)) := (round_intCast m).symm
    _ ≤ round (1000 * x) := round_mono_real (by rw [hm]; linarith)
  have hhi : round (1000 * x) ≤ k := by
    calc round (1000 * x) ≤ round ((k : ℝ)) := round_mono_real (by rw [hk]; linarith)
    _ = k := round_intCast k
  constructor
  · have hcast : (m : ℝ) ≤ ((round (1000 * x) : ℤ) : ℝ) := by exact_mod_cast hlo
    rw [le_div_iff₀ (by norm_num : (0:ℝ) < 1000)]
    linarith
  · have hcast : ((round (1000 * x) : ℤ) : ℝ) ≤ (k : ℝ) := by exact_mod_cast hhi
    rw [div_le_iff₀ (by norm_num : (0:ℝ) < 1000)]
    linarith

/-! ## Gauss-Jordan elimination on diagonal matrices

These lemmas evaluate `invertMatrix` on the diagonal matrices that arise in
concrete solver runs whose Jacobian columns vanish (then `A = lambda^2 I`). -/

/-- A diagonal matrix. -/
def diagMat {n : ℕ} (f : Fin n → ℝ) : Mat n := fun r c => if r = c then f r else 0

theorem pivotSearch_diag {n : ℕ} (f : Fin n → ℝ) (col : Fin n) :
    pivotSearch (diagMat f) col = (col, |f col|) := by
  unfold pivotSearch
  have hinit : |diagMat f col col| = |f col| := by
    unfold diagMat
    rw [if_pos rfl]
  rw [hinit]
  apply foldl_id
  intro r
  rw [if_neg]
  rintro ⟨hlt, habs⟩
  have hz : diagMat f r col = 0 := by
    unfold diagMat
    rw [if_neg (ne_of_gt hlt)]
  rw [hz, abs_zero] at habs
  exact absurd habs (not_lt.mpr (abs_nonneg _))

theorem gjColumn_diag_none {n : ℕ} (f : Fin n → ℝ) (M : Mat n) (col : Fin n)
    (hf : |f col| < 1e-12) : gjColumn (diagMat f, M) col = none := by
  simp only [gjColumn, pivotSearch_diag]
  rw [if_pos hf]

theorem gjColumn_diag_some {n : ℕ} (f g : Fin n → ℝ) (col : Fin n)
    (hf : ¬ |f col| < 1e-12) :
    gjColumn (diagMat f, diagMat g) col =
      some (diagMat (Function.update f col 1),
            diagMat (Function.update g col (g col / f col))) := by
  have hf0 : f col ≠ 0 := by
    intro h0
    apply hf
    rw [h0, abs_zero]
    norm_num
  simp only [gjColumn, pivotSearch_diag]
  rw [if_neg hf]
  refine congrArg some (Prod.ext ?_ ?_) <;> funext r c <;>
    by_cases hr : r = col <;> by_cases hc : r = c <;>
      simp_all [diagMat, Function.update, div_self hf0]

theorem gj_foldlM_diag {n : ℕ} :
    ∀ (L : List (Fin n)) (_ : L.Nodup) (f g : Fin n → ℝ),
      (∀ c ∈ L, ¬ |f c| < 1e-12) →
      L.foldlM gjColumn (diagMat f, diagMat g) =
        some (diagMat (fun c => if c ∈ L then 1 else f c),
              diagMat (fun c => if c ∈ L then g c / f c else g c)) := by
  intro L
  induction L with
  | nil =>
    intro _ f g _
    simp only [List.foldlM_nil, List.not_mem_nil, if_false]
    rfl
  | cons col rest ih =>
    intro hnd f g hf
    have hstep : List.foldlM gjColumn (diagMat f, diagMat g) (col :: rest) =
        List.foldlM gjColumn
          (diagMat (Function.update f col 1),
           diagMat (Function.update g col (g col / f col))) rest := by
      rw [List.foldlM_cons, gjColumn_diag_some f g col (hf col (List.mem_cons_self _ _))]
      rfl
    have hcolrest : col ∉ rest := (List.nodup_cons.mp hnd).1
    have hrec := ih (List.nodup_cons.mp hnd).2 (Function.update f col 1)
      (Function.update g col (g col / f col))
      (by
        intro c hc
        rw [Function.update_noteq (fun he => hcolrest (by rw [← he]; exact hc))]
        exact hf c (List.mem_cons_of_mem _ hc))
    rw [hstep, hrec]
    refine congrArg some (Prod.ext ?_ ?_)
    · refine congrArg diagMat ?_
      funext c
      by_cases hcr : c ∈ rest
      · rw [if_pos hcr, if_pos (List.mem_cons_of_mem _ hcr)]
      · by_cases hcc : c = col
        · subst hcc
          rw [if_neg hcr, Function.update_same, if_pos (List.mem_cons_self _ _)]
        · rw [if_neg hcr, Function.update_noteq hcc,
            if_neg (by simp [List.mem_cons, hcc, hcr])]
    · refine congrArg diagMat ?_
      funext c
      by_cases hcr : c ∈ rest
      · have hcc : c ≠ col := fun he => hcolrest (he ▸ hcr)
        rw [if_pos hcr, Function.update_noteq hcc, Function.update_noteq hcc,
          if_pos (List.mem_cons_of_mem _ hcr)]
      · by_cases hcc : c = col
        · subst hcc
          rw [if_neg hcr, Function.update_same, if_pos (List.mem_cons_self _ _)]
        · rw [if_neg hcr, Function.update_noteq hcc,
            if_neg (by simp [List.mem_cons, hcc, hcr])]

/-- Inverting a diagonal matrix with no small diagonal entry succeeds and gives
the reciprocal diagonal. -/
theorem invertMatrix_diag {n : ℕ} (f : Fin n → ℝ) (hf : ∀ c, ¬ |f c| < 1e-12) :
    invertMatrix (diagMat f) = some (diagMat (fun c => 1 / f c)) := by
  unfold invertMatrix
  have hid : (idMat n : Mat n) = diagMat (fun _ => (1:ℝ)) := by
    funext r c
    unfold idMat diagMat
    rfl
  rw [hid, gj_foldlM_diag (List.finRange n) (List.nodup_finRange n) f (fun _ => 1)
    (fun c _ => hf c)]
  simp only [Option.map_some, List.mem_finRange, if_true]
  refine congrArg some (congrArg diagMat ?_)
  funext c
  rw [one_div]

/-- Inverting the zero matrix fails at the very first pivot. -/
theorem invertMatrix_zero9 : invertMatrix (diagMat (fun _ => (0:ℝ)) : Mat 9) = none := by
  unfold invertMatrix
  rw [List.finRange_succ_eq_map, List.foldlM_cons,
    gjColumn_diag_none (fun _ => (0:ℝ)) (idMat 9) 0 (by rw [abs_zero]; norm_num)]
  rfl

/-! ## Loop evaluation helpers and concrete scenarios -/

theorem iterateOnce_converged {rig : Rig} {o : SolveOptions} {pa pb pc : String}
    {joints : List ChainJoint} {tg : Targets3} {σ : JState}
    (h : residualAt rig o pa pb pc tg σ < o.tolerance) :
    iterateOnce rig o pa pb pc joints tg σ = none := by
  unfold iterateOnce
  rw [if_pos h]

theorem iterateOnce_singular {rig : Rig} {o : SolveOptions} {pa pb pc : String}
    {joints : List ChainJoint} {tg : Targets3} {σ : JState}
    (hres : ¬ residualAt rig o pa pb pc tg σ < o.tolerance)
    (hsing : invertMatrix (buildA o (colsAt rig o pa pb pc joints σ)) = none) :
    iterateOnce rig o pa pb pc joints tg σ = none := by
  unfold iterateOnce
  rw [if_neg hres, hsing]

theorem iterateOnce_step {rig : Rig} {o : SolveOptions} {pa pb pc : String}
    {joints : List ChainJoint} {tg : Targets3} {σ : JState} {M : Mat 9}
    (hres : ¬ residualAt rig o pa pb pc tg σ < o.tolerance)
    (hinv : invertMatrix (buildA o (colsAt rig o pa pb pc joints σ)) = some M) :
    iterateOnce rig o pa pb pc joints tg σ =
      some (applyUpdates o
        (v9vec M (e9vec (errA rig o pa tg σ) (errB rig o pb tg σ) (errC rig o pc tg σ)))
        (joints.zip (colsAt rig o pa pb pc joints σ)) σ) := by
  unfold iterateOnce
  rw [if_neg hres, hinv]

/-- If the first iteration from a state breaks, any remaining budget returns
that state unchanged. -/
theorem runIters_stop {rig : Rig} {o : SolveOptions} {pa pb pc : String}
    {joints : List ChainJoint} {tg : Targets3} {σ : JState}
    (h : iterateOnce rig o pa pb pc joints tg σ = none) :
    ∀ fuel, runIters rig o pa pb pc joints tg fuel σ = σ := by
  intro fuel
  cases fuel with
  | zero => rfl
  | succ f =>
    unfold runIters
    rw [h]

theorem runIters_succ_of_step {rig : Rig} {o : SolveOptions} {pa pb pc : String}
    {joints : List ChainJoint} {tg : Targets3} {σ σ1 : JState} {fuel : ℕ}
    (h : iterateOnce rig o pa pb pc joints tg σ = some σ1) :
    runIters rig o pa pb pc joints tg (fuel + 1) σ =
      runIters rig o pa pb pc joints tg fuel σ1 := by
  have hdef : runIters rig o pa pb pc joints tg (fuel + 1) σ =
      match iterateOnce rig o pa pb pc joints tg σ with
      | none => σ
      | some σ2 => runIters rig o pa pb pc joints tg fuel σ2 := rfl
  rw [hdef, h]

theorem resolveJoints_every {rig : Rig} :
    ∀ l : List ChainJoint, (∀ j ∈ l, rig.hasNode j.glb = true) →
      resolveJoints rig l = some l := by
  intro l
  induction l with
  | nil => intro _; rfl
  | cons j rest ih =>
    intro h
    unfold resolveJoints
    rw [if_pos (h j (List.mem_cons_self _ _)), ih (fun x hx => h x (List.mem_cons_of_mem _ hx))]
    rfl

theorem solve_eval {rig : Rig} {now : String} {σ : JState} {tg : Targets3} {o : SolveOptions}
    {pa pb pc : String}
    (hpa : resolvePoint rig o.elbowPointName "Elbow_Flex" = some pa)
    (hpb : resolvePoint rig o.wristPointName "Wrist_Flex" = some pb)
    (hpc : (if rig.hasNode o.eePointName then some o.eePointName else none) = some pc)
    (hjs : resolveJoints rig o.chain = some o.chain) :
    solveCoupled3TargetIKToJson rig now σ tg o =
      .ok (emit now o.chain (runIters rig o pa pb pc o.chain tg o.iterations σ),
           runIters rig o pa pb pc o.chain tg o.iterations σ) := by
  unfold solveCoupled3TargetIKToJson
  rw [hpa, hpb, hpc, hjs]

/-- A degenerate test rig: every node exists, every world position is the fixed
point `p` and every world axis is the zero vector. -/
def constRig (p : Vec3) : Rig :=
  { pos := fun _ _ => p, axisW := fun _ _ => Vec3.zero, hasNode := fun _ => true }

/-- Targets at the origin. -/
def tgZero : Targets3 := ⟨Vec3.zero, Vec3.zero, Vec3.zero⟩

/-- One displaced target along x, the others at the origin. -/
def tgX : Targets3 := ⟨⟨1, 0, 0⟩, Vec3.zero, Vec3.zero⟩

/-- All scene rotations zero. -/
def σZero : JState := fun _ _ => 0

/-- A state whose base-rotation drive sits at 3 radians, all else zero. -/
def σBase3 : JState := fun n a => if n = "Base_Rotation" ∧ a = Axis.y then 3 else 0

theorem constRig_resolvePoint (p : Vec3) (prim fb : String) :
    resolvePoint (constRig p) prim fb = some prim := by
  unfold resolvePoint constRig
  simp

theorem constRig_resolveJoints (p : Vec3) (l : List ChainJoint) :
    resolveJoints (constRig p) l = some l :=
  resolveJoints_every l (fun _ _ => rfl)

theorem constRig_solve_eval (p : Vec3) (now : String) (σ : JState) (tg : Targets3)
    (o : SolveOptions) :
    solveCoupled3TargetIKToJson (constRig p) now σ tg o =
      .ok (emit now o.chain
            (runIters (constRig p) o o.elbowPointName o.wristPointName o.eePointName
              o.chain tg o.iterations σ),
           runIters (constRig p) o o.elbowPointName o.wristPointName o.eePointName
             o.chain tg o.iterations σ) :=
  solve_eval (constRig_resolvePoint p _ _) (constRig_resolvePoint p _ _) (by simp [constRig])
    (constRig_resolveJoints p _)

theorem residualAt_tgZero (o : SolveOptions) (pa pb pc : String) (σ : JState) :
    residualAt (constRig Vec3.zero) o pa pb pc tgZero σ = 0 := by
  unfold residualAt iterResidual errA errB errC constRig tgZero
  simp [Vec3.sub, Vec3.smul, Vec3.zero, Vec3.length, Vec3.lengthSq, Real.sqrt_zero]

theorem residualAt_tgX (o : SolveOptions) (pa pb pc : String) (σ : JState)
    (hA : o.wA = 1.4) : residualAt (constRig Vec3.zero) o pa pb pc tgX σ = 1 := by
  simp only [residualAt, iterResidual, errA, errB, errC, constRig, tgX]
  rw [hA]
  have hv : Vec3.smul 1.4 (Vec3.sub ⟨1, 0, 0⟩ Vec3.zero) = ⟨1.4, 0, 0⟩ := by
    unfold Vec3.smul Vec3.sub Vec3.zero
    norm_num
  have hzB : Vec3.smul o.wB (Vec3.sub Vec3.zero Vec3.zero) = Vec3.zero := by
    unfold Vec3.smul Vec3.sub Vec3.zero
    norm_num
  have hzC : Vec3.smul o.wC (Vec3.sub Vec3.zero Vec3.zero) = Vec3.zero := by
    unfold Vec3.smul Vec3.sub Vec3.zero
    norm_num
  rw [hv, hzB, hzC, Vec3.length_zero]
  have hl : Vec3.length ⟨1.4, 0, 0⟩ = 1.4 := by
    unfold Vec3.length Vec3.lengthSq
    rw [show ((1.4:ℝ) * 1.4 + 0 * 0 + 0 * 0) = 1.4 ^ 2 by norm_num,
      Real.sqrt_sq (by norm_num : (0:ℝ) ≤ 1.4)]
  rw [hl]
  rw [show max (1.4:ℝ) 1e-9 = 1.4 from max_eq_left (by norm_num),
    div_self (by norm_num : (1.4:ℝ) ≠ 0), zero_div, zero_div, max_self]
  exact max_eq_left zero_le_one

theorem cross_zero_left (b : Vec3) : Vec3.cross Vec3.zero b = Vec3.zero := by
  unfold Vec3.cross Vec3.zero
  norm_num

theorem smul_zero_right (s : ℝ) : Vec3.smul s Vec3.zero = Vec3.zero := by
  unfold Vec3.smul Vec3.zero
  norm_num

/-- A Jacobian column that is entirely zero. -/
def zeroJCol : JCol := ⟨Vec3.zero, Vec3.zero, Vec3.zero⟩

theorem colsAt_constRig (p : Vec3) (o : SolveOptions) (pa pb pc : String)
    (joints : List ChainJoint) (σ : JState) :
    ∀ c ∈ colsAt (constRig p) o pa pb pc joints σ, c = zeroJCol := by
  intro c hc
  simp only [colsAt] at hc
  obtain ⟨j, _, rfl⟩ := List.mem_map.mp hc
  simp only [colOf, constRig, cross_zero_left, smul_zero_right]
  rfl

theorem colVec_zero : colVec zeroJCol = fun _ => (0:ℝ) := by
  funext k
  fin_cases k <;> rfl

theorem buildA_zeroCols (o : SolveOptions) (cols : List JCol)
    (h : ∀ c ∈ cols, c = zeroJCol) :
    buildA o cols = diagMat (fun _ => o.lambda * o.lambda) := by
  funext r k
  unfold buildA diagMat
  have hsum : (cols.map (fun c => colVec c r * colVec c k)).sum = 0 := by
    apply List.sum_eq_zero
    intro x hx
    obtain ⟨c, hc, rfl⟩ := List.mem_map.mp hx
    rw [h c hc, colVec_zero]
    norm_num
  rw [hsum, zero_add]

theorem buildA_constRig (p : Vec3) (o : SolveOptions) (pa pb pc : String)
    (joints : List ChainJoint) (σ : JState) :
    buildA o (colsAt (constRig p) o pa pb pc joints σ) =
      diagMat (fun _ => o.lambda * o.lambda) :=
  buildA_zeroCols o _ (colsAt_constRig p o pa pb pc joints σ)

/-- Degrees-per-radian times radians-per-degree is one. -/
theorem DEG2RAD_mul_RAD2DEG : DEG2RAD * RAD2DEG = 1 := by
  unfold DEG2RAD RAD2DEG
  field_simp

theorem rad_deg_bounds {lo hi v : ℝ} (h1 : lo * DEG2RAD ≤ v) (h2 : v ≤ hi * DEG2RAD) :
    lo ≤ v * RAD2DEG ∧ v * RAD2DEG ≤ hi := by
  constructor
  · have h := mul_le_mul_of_nonneg_right h1 RAD2DEG_pos.le
    rw [mul_assoc, DEG2RAD_mul_RAD2DEG, mul_one] at h
    exact h
  · have h := mul_le_mul_of_nonneg_right h2 RAD2DEG_pos.le
    rw [mul_assoc, DEG2RAD_mul_RAD2DEG, mul_one] at h
    exact h

theorem default_limits_wf : ∀ g lo hi, defaultLimitsDeg g = some (lo, hi) → lo ≤ hi := by
  intro g lo hi h
  unfold defaultLimitsDeg at h
  split_ifs at h <;> simp_all <;> linarith [h.1, h.2]

/-- Any successful solve preserves the limits invariant of the chain, given
well-ordered configured ranges. -/
theorem solve_preserves_limits {rig : Rig} {now : String} {σ : JState} {tg : Targets3}
    {o : SolveOptions} {cmd : Json} {σ1 : JState}
    (hw : ∀ g lo hi, o.limitsDeg g = some (lo, hi) → lo ≤ hi)
    (hin : InLimits o o.chain σ)
    (h : solveCoupled3TargetIKToJson rig now σ tg o = .ok (cmd, σ1)) :
    InLimits o o.chain σ1 := by
  obtain ⟨pa, pb, pc, _, _, _, _, hσ, _⟩ := solve_ok_elim h
  rw [hσ]
  exact runIters_preserves hw _ _ hin

/-- C2 counterexample: a solve whose first iteration already satisfies the
tolerance commits the untouched pre-solve angles, so a base-rotation drive of
3 rad is emitted although the configured limit is 109 degrees, which is below
3 rad.  The claimed unconditional joint-limit invariant is false. -/
theorem joint_limits_counterexample :
    (solveCoupled3TargetIKToJson (constRig Vec3.zero) "t0" σBase3 tgZero
        defaultSolveOptions).map Prod.snd = .ok σBase3 ∧
    defaultSolveOptions.limitsDeg "Base_Rotation" = some (-109, 109) ∧
    σBase3 "Base_Rotation" Axis.y = 3 ∧
    109 * DEG2RAD < 3 := by
  refine ⟨?_, ?_, ?_, ?_⟩
  · rw [constRig_solve_eval, runIters_stop (iterateOnce_converged ?_) _]
    · rfl
    · rw [residualAt_tgZero]
      norm_num [defaultSolveOptions]
  · rfl
  · simp [σBase3]
  · have hpi := Real.pi_lt_d2
    unfold DEG2RAD
    nlinarith

/-- C2 (amended): every angle the iteration loop writes is clamped into its
configured range, so (1) any solve whose configured ranges are well-ordered
and whose pre-solve chain angles are in range commits only in-range chain
angles; (2) under the default configuration the degree values emitted in the
output command also lie in the default ranges; and (3) every geometric-solver
output under the default limits is in range. -/
theorem joint_limits_invariant :
    (∀ (rig : Rig) (now : String) (σ : JState) (tg : Targets3) (o : SolveOptions)
        (cmd : Json) (σ1 : JState),
      (∀ g lo hi, o.limitsDeg g = some (lo, hi) → lo ≤ hi) →
      InLimits o o.chain σ →
      solveCoupled3TargetIKToJson rig now σ tg o = .ok (cmd, σ1) →
      InLimits o o.chain σ1) ∧
    (∀ (rig : Rig) (now : String) (σ : JState) (tg : Targets3) (cmd : Json) (σ1 : JState),
      InLimits defaultSolveOptions defaultChain σ →
      solveCoupled3TargetIKToJson rig now σ tg defaultSolveOptions = .ok (cmd, σ1) →
      ((-109 ≤ toFixed3 (σ1 "Base_Rotation" Axis.y * RAD2DEG) ∧
        toFixed3 (σ1 "Base_Rotation" Axis.y * RAD2DEG) ≤ 109) ∧
       (0 ≤ toFixed3 (σ1 "Shoulder_Lift" Axis.x * RAD2DEG) ∧
        toFixed3 (σ1 "Shoulder_Lift" Axis.x * RAD2DEG) ≤ 190) ∧
       (-180 ≤ toFixed3 (σ1 "Elbow_Flex" Axis.x * RAD2DEG) ∧
        toFixed3 (σ1 "Elbow_Flex" Axis.x * RAD2DEG) ≤ 0) ∧
       (-170 ≤ toFixed3 (σ1 "Wrist_Flex" Axis.x * RAD2DEG) ∧
        toFixed3 (σ1 "Wrist_Flex" Axis.x * RAD2DEG) ≤ 0))) ∧
    (∀ (now : String) (kp : GeoKeypoints) (cmd : GeoCmd),
      calculateJointAnglesFromPose now kp defaultGeoLimits = some cmd →
      ((-109 ≤ cmd.baseRotationY ∧ cmd.baseRotationY ≤ 109) ∧
       (0 ≤ cmd.shoulderLiftX ∧ cmd.shoulderLiftX ≤ 190) ∧
       (-180 ≤ cmd.elbowFlexX ∧ cmd.elbowFlexX ≤ 0) ∧
       (-170 ≤ cmd.wristFlexX ∧ cmd.wristFlexX ≤ 0))) := by
  refine ⟨?_, ?_, ?_⟩
  · intro rig now σ tg o cmd σ1 hw hin h
    exact solve_preserves_limits hw hin h
  · intro rig now σ tg cmd σ1 hin h
    have hσ1 : InLimits defaultSolveOptions defaultChain σ1 :=
      solve_preserves_limits default_limits_wf hin h
    have hB := hσ1 ⟨"Base_Rotation", .y, "base_rotation"⟩ (by simp [defaultChain])
      (-109) 109 rfl
    have hS := hσ1 ⟨"Shoulder_Lift", .x, "shoulder_lift"⟩ (by simp [defaultChain])
      0 190 rfl
    have hE := hσ1 ⟨"Elbow_Flex", .x, "elbow_flex"⟩ (by simp [defaultChain])
      (-180) 0 rfl
    have hW := hσ1 ⟨"Wrist_Flex", .x, "wrist_flex"⟩ (by simp [defaultChain])
      (-170) 0 rfl
    refine ⟨?_, ?_, ?_, ?_⟩
    · exact toFixed3_mem (-109000) (109000) (by norm_num) (by norm_num)
        (rad_deg_bounds hB.1 hB.2).1 (rad_deg_bounds hB.1 hB.2).2
    · exact toFixed3_mem (0) (190000) (by norm_num) (by norm_num)
        (rad_deg_bounds hS.1 hS.2).1 (rad_deg_bounds hS.1 hS.2).2
    · exact toFixed3_mem (-180000) (0) (by norm_num) (by norm_num)
        (rad_deg_bounds hE.1 hE.2).1 (rad_deg_bounds hE.1 hE.2).2
    · exact toFixed3_mem (-170000) (0) (by norm_num) (by norm_num)
        (rad_deg_bounds hW.1 hW.2).1 (rad_deg_bounds hW.1 hW.2).2
  · intro now kp cmd h
    obtain ⟨s, e, w, hd⟩ := kp
    cases s with
    | none => simp [calculateJointAnglesFromPose] at h
    | some sv =>
    cases e with
    | none => simp [calculateJointAnglesFromPose] at h
    | some ev =>
    cases w with
    | none => simp [calculateJointAnglesFromPose] at h
    | some wv =>
    cases hd with
    | none => simp [calculateJointAnglesFromPose] at h
    | some hv =>
    simp only [calculateJointAnglesFromPose, Option.some.injEq] at h
    subst h
    refine ⟨?_, ?_, ?_, ?_⟩
    · exact toFixed3_mem (-109000) (109000) (by norm_num) (by norm_num)
        (clamp_mem _ _ _ (by norm_num)).1 (clamp_mem _ _ _ (by norm_num)).2
    · exact toFixed3_mem (0) (190000) (by norm_num) (by norm_num)
        (clamp_mem _ _ _ (by norm_num)).1 (clamp_mem _ _ _ (by norm_num)).2
    · exact toFixed3_mem (-180000) (0) (by norm_num) (by norm_num)
        (clamp_mem _ _ _ (by norm_num)).1 (clamp_mem _ _ _ (by norm_num)).2
    · exact toFixed3_mem (-170000) (0) (by norm_num) (by norm_num)
        (clamp_mem _ _ _ (by norm_num)).1 (clamp_mem _ _ _ (by norm_num)).2

/-- C2 witness: the amended invariant applied to a concrete in-range solve. -/
theorem joint_limits_invariant_witness :
    InLimits defaultSolveOptions defaultChain σZero ∧
    solveCoupled3TargetIKToJson (constRig Vec3.zero) "t0" σZero tgZero defaultSolveOptions =
      .ok (emit "t0" defaultChain σZero, σZero) ∧
    ((-109 ≤ toFixed3 (σZero "Base_Rotation" Axis.y * RAD2DEG) ∧
      toFixed3 (σZero "Base_Rotation" Axis.y * RAD2DEG) ≤ 109) ∧
     (0 ≤ toFixed3 (σZero "Shoulder_Lift" Axis.x * RAD2DEG) ∧
      toFixed3 (σZero "Shoulder_Lift" Axis.x * RAD2DEG) ≤ 190) ∧
     (-180 ≤ toFixed3 (σZero "Elbow_Flex" Axis.x * RAD2DEG) ∧
      toFixed3 (σZero "Elbow_Flex" Axis.x * RAD2DEG) ≤ 0) ∧
     (-170 ≤ toFixed3 (σZero "Wrist_Flex" Axis.x * RAD2DEG) ∧
      toFixed3 (σZero "Wrist_Flex" Axis.x * RAD2DEG) ≤ 0)) := by
  have hin : InLimits defaultSolveOptions defaultChain σZero := by
    intro j hj lo hi hlim
    have hd := DEG2RAD_pos
    fin_cases hj <;>
      (simp only [defaultSolveOptions] at hlim) <;>
      (rw [show defaultLimitsDeg _ = _ from rfl] at hlim) <;>
      simp_all [σZero, defaultLimitsDeg] <;>
      constructor <;> nlinarith
  have hconv : residualAt (constRig Vec3.zero) defaultSolveOptions
      defaultSolveOptions.elbowPointName defaultSolveOptions.wristPointName
      defaultSolveOptions.eePointName tgZero σZero < defaultSolveOptions.tolerance := by
    rw [residualAt_tgZero]
    norm_num [defaultSolveOptions]
  have hsolve : solveCoupled3TargetIKToJson (constRig Vec3.zero) "t0" σZero tgZero
      defaultSolveOptions = .ok (emit "t0" defaultChain σZero, σZero) := by
    rw [constRig_solve_eval, runIters_stop (iterateOnce_converged hconv) _]
    rfl
  exact ⟨hin, hsolve, (joint_limits_invariant.2.1 (constRig Vec3.zero) "t0" σZero tgZero
    (emit "t0" defaultChain σZero) σZero hin hsolve)⟩

/-! ## C3: the convergence residual -/

/-- The aggregate residual exactly as the claim words it: the weighted error
norm divided by the target's own weight (for comparison with the code's
`iterResidual`, which divides by max(weight, 1e-9)). -/
def specResidual (o : SolveOptions) (eA eB eC : Vec3) : ℝ :=
  max (eA.length / o.wA) (max (eB.length / o.wB) (eC.length / o.wC))

theorem residualAt_tgX_gen (o : SolveOptions) (pa pb pc : String) (σ : JState)
    (hA : 0 ≤ o.wA) :
    residualAt (constRig Vec3.zero) o pa pb pc tgX σ = max (o.wA / max o.wA 1e-9) 0 := by
  simp only [residualAt, iterResidual, errA, errB, errC, constRig, tgX]
  have hv : Vec3.smul o.wA (Vec3.sub ⟨1, 0, 0⟩ Vec3.zero) = ⟨o.wA, 0, 0⟩ := by
    unfold Vec3.smul Vec3.sub Vec3.zero
    norm_num
  have hzB : Vec3.smul o.wB (Vec3.sub Vec3.zero Vec3.zero) = Vec3.zero := by
    unfold Vec3.smul Vec3.sub Vec3.zero
    norm_num
  have hzC : Vec3.smul o.wC (Vec3.sub Vec3.zero Vec3.zero) = Vec3.zero := by
    unfold Vec3.smul Vec3.sub Vec3.zero
    norm_num
  have hl : Vec3.length ⟨o.wA, 0, 0⟩ = o.wA := by
    unfold Vec3.length Vec3.lengthSq
    rw [show (o.wA * o.wA + 0 * 0 + 0 * 0 : ℝ) = o.wA ^ 2 by ring, Real.sqrt_sq hA]
  rw [hv, hzB, hzC, Vec3.length_zero, hl, zero_div, zero_div, max_self]

/-- The options of the C3 counterexample: a tiny (but strictly positive) elbow
weight and a loose tolerance. -/
def optsC3 : SolveOptions := { defaultSolveOptions with wA := 1e-10, tolerance := 0.5 }

/-- C3 counterexample: with weight 1e-10 the loop's residual is the weighted
norm divided by 1e-9, not by the weight: the code computes 1/10 where the
claimed formula gives 1, and the iteration stops (converged) although the
claimed residual is not below the tolerance. -/
theorem residual_formula_counterexample :
    residualAt (constRig Vec3.zero) optsC3 optsC3.elbowPointName optsC3.wristPointName
        optsC3.eePointName tgX σZero = 1 / 10 ∧
    specResidual optsC3
        (errA (constRig Vec3.zero) optsC3 optsC3.elbowPointName tgX σZero)
        (errB (constRig Vec3.zero) optsC3 optsC3.wristPointName tgX σZero)
        (errC (constRig Vec3.zero) optsC3 optsC3.eePointName tgX σZero) = 1 ∧
    iterateOnce (constRig Vec3.zero) optsC3 optsC3.elbowPointName optsC3.wristPointName
        optsC3.eePointName optsC3.chain tgX σZero = none ∧
    ¬ specResidual optsC3
        (errA (constRig Vec3.zero) optsC3 optsC3.elbowPointName tgX σZero)
        (errB (constRig Vec3.zero) optsC3 optsC3.wristPointName tgX σZero)
        (errC (constRig Vec3.zero) optsC3 optsC3.eePointName tgX σZero)
      < optsC3.tolerance := by
  have hwA : optsC3.wA = 1e-10 := rfl
  have hres : residualAt (constRig Vec3.zero) optsC3 optsC3.elbowPointName
      optsC3.wristPointName optsC3.eePointName tgX σZero = 1 / 10 := by
    rw [residualAt_tgX_gen optsC3 optsC3.elbowPointName optsC3.wristPointName
      optsC3.eePointName σZero (by rw [hwA]; norm_num), hwA]
    rw [show max (1e-10 : ℝ) 1e-9 = 1e-9 from max_eq_right (by norm_num)]
    rw [show (1e-10 : ℝ) / 1e-9 = 1 / 10 by norm_num]
    exact max_eq_left (by norm_num)
  have heA : errA (constRig Vec3.zero) optsC3 optsC3.elbowPointName tgX σZero
      = ⟨1e-10, 0, 0⟩ := by
    simp only [errA, constRig, tgX, hwA]
    unfold Vec3.smul Vec3.sub Vec3.zero
    norm_num
  have heB : errB (constRig Vec3.zero) optsC3 optsC3.wristPointName tgX σZero = Vec3.zero := by
    simp only [errB, constRig, tgX]
    unfold Vec3.smul Vec3.sub Vec3.zero
    norm_num
  have heC : errC (constRig Vec3.zero) optsC3 optsC3.eePointName tgX σZero = Vec3.zero := by
    simp only [errC, constRig, tgX]
    unfold Vec3.smul Vec3.sub Vec3.zero
    norm_num
  have hlen : Vec3.length ⟨1e-10, 0, 0⟩ = 1e-10 := by
    unfold Vec3.length Vec3.lengthSq
    rw [show ((1e-10 : ℝ) * 1e-10 + 0 * 0 + 0 * 0) = (1e-10 : ℝ) ^ 2 by norm_num,
      Real.sqrt_sq (by norm_num : (0:ℝ) ≤ 1e-10)]
  have hspec : specResidual optsC3
      (errA (constRig Vec3.zero) optsC3 optsC3.elbowPointName tgX σZero)
      (errB (constRig Vec3.zero) optsC3 optsC3.wristPointName tgX σZero)
      (errC (constRig Vec3.zero) optsC3 optsC3.eePointName tgX σZero) = 1 := by
    unfold specResidual
    rw [heA, heB, heC, hlen, Vec3.length_zero, hwA,
      div_self (by norm_num : (1e-10:ℝ) ≠ 0), zero_div, zero_div, max_self]
    exact max_eq_left zero_le_one
  refine ⟨hres, hspec, ?_, ?_⟩
  · apply iterateOnce_converged
    rw [hres]
    norm_num [optsC3, defaultSolveOptions]
  · rw [hspec]
    norm_num [optsC3, defaultSolveOptions]

/-- C3 (amended): on every iteration the aggregate residual is the maximum
over the three targets of the weighted error norm divided by
max(that target's weight, 1e-9); the loop breaks as converged exactly when
this residual is below the tolerance (the only other break being the
singular-matrix abort). -/
theorem residual_convergence (rig : Rig) (o : SolveOptions) (pa pb pc : String)
    (joints : List ChainJoint) (tg : Targets3) (σ : JState) (fuel : ℕ) :
    residualAt rig o pa pb pc tg σ =
      max ((errA rig o pa tg σ).length / max o.wA 1e-9)
        (max ((errB rig o pb tg σ).length / max o.wB 1e-9)
          ((errC rig o pc tg σ).length / max o.wC 1e-9)) ∧
    (residualAt rig o pa pb pc tg σ < o.tolerance →
      iterateOnce rig o pa pb pc joints tg σ = none ∧
      runIters rig o pa pb pc joints tg (fuel + 1) σ = σ) ∧
    (¬ residualAt rig o pa pb pc tg σ < o.tolerance →
      ∀ M, invertMatrix (buildA o (colsAt rig o pa pb pc joints σ)) = some M →
        iterateOnce rig o pa pb pc joints tg σ ≠ none) := by
  refine ⟨rfl, ?_, ?_⟩
  · intro h
    exact ⟨iterateOnce_converged h, runIters_stop (iterateOnce_converged h) _⟩
  · intro h M hM
    rw [iterateOnce_step h hM]
    exact Option.some_ne_none _

/-- C3 witness: the convergence test at a concrete converged iteration. -/
theorem residual_convergence_witness :
    residualAt (constRig Vec3.zero) defaultSolveOptions "Elbow_Point" "Wrist_Point"
        "EndEffector" tgZero σZero < defaultSolveOptions.tolerance ∧
    (iterateOnce (constRig Vec3.zero) defaultSolveOptions "Elbow_Point" "Wrist_Point"
        "EndEffector" defaultChain tgZero σZero = none ∧
     runIters (constRig Vec3.zero) defaultSolveOptions "Elbow_Point" "Wrist_Point"
        "EndEffector" defaultChain tgZero (39 + 1) σZero = σZero) := by
  have hconv : residualAt (constRig Vec3.zero) defaultSolveOptions "Elbow_Point"
      "Wrist_Point" "EndEffector" tgZero σZero < defaultSolveOptions.tolerance := by
    rw [residualAt_tgZero]
    norm_num [defaultSolveOptions]
  exact ⟨hconv, (residual_convergence (constRig Vec3.zero) defaultSolveOptions "Elbow_Point"
    "Wrist_Point" "EndEffector" defaultChain tgZero σZero 39).2.1 hconv⟩

/-! ## C4: the per-joint update pipeline -/

/-- The 9-vector `v = invA * e` of one non-converged iteration. -/
def stepV9 (rig : Rig) (o : SolveOptions) (pa pb pc : String) (tg : Targets3) (σ : JState)
    (M : Mat 9) : Fin 9 → ℝ :=
  v9vec M (e9vec (errA rig o pa tg σ) (errB rig o pb tg σ) (errC rig o pc tg σ))

/-- The value a single joint update writes at its own (node, axis) location. -/
theorem updateJoint_value (o : SolveOptions) (v9 : Fin 9 → ℝ) (σ : JState)
    (jc : ChainJoint × JCol) :
    updateJoint o v9 σ jc jc.1.glb jc.1.axis =
      (match limRad o jc.1.glb with
       | some l => clamp (σ jc.1.glb jc.1.axis +
           clamp (if jc.1.glb = "Base_Rotation" then -(dot9 jc.2 v9 * o.stepScale)
               else dot9 jc.2 v9 * o.stepScale)
             (-(jointMaxStep o jc.1.glb)) (jointMaxStep o jc.1.glb)) l.1 l.2
       | none => σ jc.1.glb jc.1.axis +
           clamp (if jc.1.glb = "Base_Rotation" then -(dot9 jc.2 v9 * o.stepScale)
               else dot9 jc.2 v9 * o.stepScale)
             (-(jointMaxStep o jc.1.glb)) (jointMaxStep o jc.1.glb)) := by
  unfold updateJoint
  exact setRot_eq

/-- The written value only depends on the pre-update rotation at the written
location (the step itself is computed from the iteration-start geometry). -/
theorem updateJoint_value_congr {o : SolveOptions} {v9 : Fin 9 → ℝ} {σ σ' : JState}
    {jc : ChainJoint × JCol} (h : σ' jc.1.glb jc.1.axis = σ jc.1.glb jc.1.axis) :
    updateJoint o v9 σ' jc jc.1.glb jc.1.axis = updateJoint o v9 σ jc jc.1.glb jc.1.axis := by
  rw [updateJoint_value, updateJoint_value, h]

theorem applyUpdates_untouched {o : SolveOptions} {v9 : Fin 9 → ℝ} {g : String} {a : Axis} :
    ∀ (jcs : List (ChainJoint × JCol)) (σ : JState),
      (∀ jc ∈ jcs, ¬(jc.1.glb = g ∧ jc.1.axis = a)) →
      applyUpdates o v9 jcs σ g a = σ g a := by
  intro jcs
  induction jcs with
  | nil => intro σ _; rfl
  | cons hd rest ih =>
    intro σ h
    unfold applyUpdates at *
    rw [List.foldl_cons, ih _ (fun x hx => h x (List.mem_cons_of_mem _ hx))]
    exact setRot_ne2 (fun hc => h hd (List.mem_cons_self _ _) ⟨hc.1.symm, hc.2.symm⟩)

theorem applyUpdates_lookup {o : SolveOptions} {v9 : Fin 9 → ℝ} :
    ∀ (jcs : List (ChainJoint × JCol)),
      jcs.Pairwise (fun x y => ¬(x.1.glb = y.1.glb ∧ x.1.axis = y.1.axis)) →
      ∀ (σ : JState) (jc : ChainJoint × JCol), jc ∈ jcs →
        applyUpdates o v9 jcs σ jc.1.glb jc.1.axis =
          updateJoint o v9 σ jc jc.1.glb jc.1.axis := by
  intro jcs
  induction jcs with
  | nil => intro _ σ jc h; cases h
  | cons hd rest ih =>
    intro hp σ jc hmem
    rw [List.pairwise_cons] at hp
    rcases List.mem_cons.mp hmem with rfl | hmem'
    · have huntouched : applyUpdates o v9 rest (updateJoint o v9 σ jc) jc.1.glb jc.1.axis =
          updateJoint o v9 σ jc jc.1.glb jc.1.axis := by
        apply applyUpdates_untouched rest (updateJoint o v9 σ jc)
        intro y hy hcon
        exact hp.1 y hy ⟨hcon.1.symm, hcon.2.symm⟩
      unfold applyUpdates at *
      rw [List.foldl_cons]
      exact huntouched
    · have hhd : ¬(hd.1.glb = jc.1.glb ∧ hd.1.axis = jc.1.axis) := hp.1 jc hmem'
      have hpre : updateJoint o v9 σ hd jc.1.glb jc.1.axis = σ jc.1.glb jc.1.axis :=
        setRot_ne2 (fun hc => hhd ⟨hc.1.symm, hc.2.symm⟩)
      unfold applyUpdates at *
      rw [List.foldl_cons, ih hp.2 _ jc hmem', updateJoint_value_congr hpre]

theorem zip_self_map {α β : Type} (l : List α) (f : α → β) :
    l.zip (l.map f) = l.map (fun a => (a, f a)) := by
  induction l with
  | nil => rfl
  | cons a t ih => simp [ih]

/-- C4: on every non-converged, non-singular iteration, each joint's new
rotation is exactly: the solved step scaled by the global step factor, then
sign-inverted for Base_Rotation, then clamped to the per-joint maximum step,
then added to the current rotation, and finally the resulting absolute angle
clamped to the joint's configured limit range, before the next iteration uses
the result; and under the default configuration the distal step caps are
strictly tighter than the base cap. -/
theorem update_pipeline (rig : Rig) (o : SolveOptions) (pa pb pc : String) (tg : Targets3)
    (σ : JState) (fuel : ℕ) (M : Mat 9)
    (hnd : o.chain.Pairwise (fun x y => ¬(x.glb = y.glb ∧ x.axis = y.axis)))
    (hres : ¬ residualAt rig o pa pb pc tg σ < o.tolerance)
    (hinv : invertMatrix (buildA o (colsAt rig o pa pb pc o.chain σ)) = some M) :
    iterateOnce rig o pa pb pc o.chain tg σ =
      some (applyUpdates o (stepV9 rig o pa pb pc tg σ M)
        (o.chain.zip (colsAt rig o pa pb pc o.chain σ)) σ) ∧
    runIters rig o pa pb pc o.chain tg (fuel + 1) σ =
      runIters rig o pa pb pc o.chain tg fuel
        (applyUpdates o (stepV9 rig o pa pb pc tg σ M)
          (o.chain.zip (colsAt rig o pa pb pc o.chain σ)) σ) ∧
    (∀ j ∈ o.chain,
      applyUpdates o (stepV9 rig o pa pb pc tg σ M)
          (o.chain.zip (colsAt rig o pa pb pc o.chain σ)) σ j.glb j.axis =
        (let dqScaled := dot9 (colOf rig o σ (rig.pos σ pa) (rig.pos σ pb) (rig.pos σ pc) j)
            (stepV9 rig o pa pb pc tg σ M) * o.stepScale
         let dqSigned := if j.glb = "Base_Rotation" then -dqScaled else dqScaled
         let dqStep := clamp dqSigned (-(jointMaxStep o j.glb)) (jointMaxStep o j.glb)
         match limRad o j.glb with
         | some l => clamp (σ j.glb j.axis + dqStep) l.1 l.2
         | none => σ j.glb j.axis + dqStep)) ∧
    (jointMaxStep defaultSolveOptions "Shoulder_Lift" <
        jointMaxStep defaultSolveOptions "Base_Rotation" ∧
     jointMaxStep defaultSolveOptions "Elbow_Flex" <
        jointMaxStep defaultSolveOptions "Base_Rotation" ∧
     jointMaxStep defaultSolveOptions "Wrist_Flex" <
        jointMaxStep defaultSolveOptions "Base_Rotation") := by
  have hstep := iterateOnce_step hres hinv
  refine ⟨hstep, runIters_succ_of_step hstep, ?_, ?_, ?_, ?_⟩
  · intro j hj
    have hzip : o.chain.zip (colsAt rig o pa pb pc o.chain σ) =
        o.chain.map (fun j =>
          (j, colOf rig o σ (rig.pos σ pa) (rig.pos σ pb) (rig.pos σ pc) j)) := by
      simp only [colsAt]
      exact zip_self_map _ _
    have hpw : (o.chain.map (fun j =>
        (j, colOf rig o σ (rig.pos σ pa) (rig.pos σ pb) (rig.pos σ pc) j))).Pairwise
        (fun x y => ¬(x.1.glb = y.1.glb ∧ x.1.axis = y.1.axis)) := by
      rw [List.pairwise_map]
      exact hnd
    rw [hzip, applyUpdates_lookup _ hpw σ _ (List.mem_map_of_mem _ hj)]
    exact updateJoint_value o _ σ _
  · norm_num [jointMaxStep, defaultSolveOptions, defaultMaxStepRadPerJoint,
      show ("Shoulder_Lift" : String) ≠ "Base_Rotation" by decide]
  · norm_num [jointMaxStep, defaultSolveOptions, defaultMaxStepRadPerJoint,
      show ("Elbow_Flex" : String) ≠ "Base_Rotation" by decide,
      show ("Elbow_Flex" : String) ≠ "Shoulder_Lift" by decide]
  · norm_num [jointMaxStep, defaultSolveOptions, defaultMaxStepRadPerJoint,
      show ("Wrist_Flex" : String) ≠ "Base_Rotation" by decide,
      show ("Wrist_Flex" : String) ≠ "Shoulder_Lift" by decide,
      show ("Wrist_Flex" : String) ≠ "Elbow_Flex" by decide]

/-- The concrete damped matrix inverse of the C4 witness run. -/
def MC4 : Mat 9 := diagMat (fun _ => 1 / (defaultSolveOptions.lambda * defaultSolveOptions.lambda))

/-- C4 witness: a concrete non-converged iteration with an invertible damped
matrix, run through the update pipeline. -/
theorem update_pipeline_witness :
    defaultSolveOptions.chain.Pairwise (fun x y => ¬(x.glb = y.glb ∧ x.axis = y.axis)) ∧
    ¬ residualAt (constRig Vec3.zero) defaultSolveOptions "Elbow_Point" "Wrist_Point"
        "EndEffector" tgX σZero < defaultSolveOptions.tolerance ∧
    invertMatrix (buildA defaultSolveOptions
        (colsAt (constRig Vec3.zero) defaultSolveOptions "Elbow_Point" "Wrist_Point"
          "EndEffector" defaultSolveOptions.chain σZero)) = some MC4 ∧
    iterateOnce (constRig Vec3.zero) defaultSolveOptions "Elbow_Point" "Wrist_Point"
        "EndEffector" defaultSolveOptions.chain tgX σZero =
      some (applyUpdates defaultSolveOptions
        (stepV9 (constRig Vec3.zero) defaultSolveOptions "Elbow_Point" "Wrist_Point"
          "EndEffector" tgX σZero MC4)
        (defaultSolveOptions.chain.zip
          (colsAt (constRig Vec3.zero) defaultSolveOptions "Elbow_Point" "Wrist_Point"
            "EndEffector" defaultSolveOptions.chain σZero)) σZero) := by
  have hnd : defaultSolveOptions.chain.Pairwise
      (fun x y => ¬(x.glb = y.glb ∧ x.axis = y.axis)) := by decide
  have hres : ¬ residualAt (constRig Vec3.zero) defaultSolveOptions "Elbow_Point"
      "Wrist_Point" "EndEffector" tgX σZero < defaultSolveOptions.tolerance := by
    rw [residualAt_tgX defaultSolveOptions "Elbow_Point" "Wrist_Point" "EndEffector" σZero rfl]
    norm_num [defaultSolveOptions]
  have hinv : invertMatrix (buildA defaultSolveOptions
      (colsAt (constRig Vec3.zero) defaultSolveOptions "Elbow_Point" "Wrist_Point"
        "EndEffector" defaultSolveOptions.chain σZero)) = some MC4 := by
    rw [buildA_constRig]
    exact invertMatrix_diag _ (fun c => by norm_num [defaultSolveOptions, abs_of_nonneg])
  exact ⟨hnd, hres, hinv,
    (update_pipeline (constRig Vec3.zero) defaultSolveOptions "Elbow_Point" "Wrist_Point"
      "EndEffector" tgX σZero 39 MC4 hnd hres hinv).1⟩

/-! ## C5: singular-matrix handling -/

/-- C5: when the Gauss-Jordan pivot check reports the regularized matrix
singular on a non-converged iteration, no joint-angle step is applied, the
iteration loop ends, and the angles held at that moment are what the whole
solve returns (and hence what proceeds to validation). -/
theorem singular_matrix_aborts (rig : Rig) (o : SolveOptions) (pa pb pc : String)
    (tg : Targets3) (σ : JState) (fuel : ℕ) (now : String)
    (hres : ¬ residualAt rig o pa pb pc tg σ < o.tolerance)
    (hsing : invertMatrix (buildA o (colsAt rig o pa pb pc o.chain σ)) = none) :
    iterateOnce rig o pa pb pc o.chain tg σ = none ∧
    runIters rig o pa pb pc o.chain tg (fuel + 1) σ = σ ∧
    (resolvePoint rig o.elbowPointName "Elbow_Flex" = some pa →
     resolvePoint rig o.wristPointName "Wrist_Flex" = some pb →
     (if rig.hasNode o.eePointName then some o.eePointName else none) = some pc →
     resolveJoints rig o.chain = some o.chain →
     solveCoupled3TargetIKToJson rig now σ tg o = .ok (emit now o.chain σ, σ)) := by
  have habort : iterateOnce rig o pa pb pc o.chain tg σ = none :=
    iterateOnce_singular hres hsing
  refine ⟨habort, runIters_stop habort _, ?_⟩
  intro hpa hpb hpc hjs
  rw [solve_eval hpa hpb hpc hjs, runIters_stop habort _]

/-- The options of the C5 witness run: default configuration with the damping
factor zeroed out. -/
def optsC5 : SolveOptions := { defaultSolveOptions with lambda := 0 }

/-- C5 witness: a concrete solve with zero damping and vanishing Jacobian
columns hits the singular pivot on its first iteration and returns the held
angles. -/
theorem singular_matrix_aborts_witness :
    ¬ residualAt (constRig Vec3.zero) optsC5
        "Elbow_Point" "Wrist_Point" "EndEffector" tgX σZero < optsC5.tolerance ∧
    invertMatrix (buildA optsC5
        (colsAt (constRig Vec3.zero) optsC5
          "Elbow_Point" "Wrist_Point" "EndEffector" optsC5.chain σZero)) = none ∧
    solveCoupled3TargetIKToJson (constRig Vec3.zero) "t0" σZero tgX optsC5 =
      .ok (emit "t0" optsC5.chain σZero, σZero) := by
  have hres : ¬ residualAt (constRig Vec3.zero) optsC5
      "Elbow_Point" "Wrist_Point" "EndEffector" tgX σZero < optsC5.tolerance := by
    rw [residualAt_tgX optsC5 "Elbow_Point" "Wrist_Point" "EndEffector" σZero rfl]
    norm_num [optsC5, defaultSolveOptions]
  have hsing : invertMatrix (buildA optsC5
      (colsAt (constRig Vec3.zero) optsC5
        "Elbow_Point" "Wrist_Point" "EndEffector" optsC5.chain σZero)) = none := by
    rw [buildA_constRig]
    rw [show (fun _ : Fin 9 => optsC5.lambda * optsC5.lambda) = (fun _ : Fin 9 => (0:ℝ))
      from by funext c; norm_num [optsC5, defaultSolveOptions]]
    exact invertMatrix_zero9
  exact ⟨hres, hsing,
    (singular_matrix_aborts (constRig Vec3.zero) optsC5
      "Elbow_Point" "Wrist_Point" "EndEffector" tgX σZero 39 "t0" hres hsing).2.2
      (constRig_resolvePoint _ _ _) (constRig_resolvePoint _ _ _)
      (by simp [constRig, optsC5, defaultSolveOptions])
      (constRig_resolveJoints _ _)⟩

/-! ## goToTargets and the solution validator (ik_debug.js lines 1033-1128) -/

/-- `const MAX_IK_ERROR = 0.6`: the fixed acceptance threshold in meters. -/
def MAX_IK_ERROR : ℝ := 0.6

/-- The joint names snapshotted and restored by goToTargets. -/
def jointNames : List String :=
  ["Base_Rotation", "Shoulder_Lift", "Elbow_Flex", "Wrist_Flex"]

/-- Save the x/y/z rotations of each listed joint found in objectsByName
(`savedJointAngles`). -/
def takeSnapshot (omap : String → Bool) (σ : JState) : List (String × ℝ × ℝ × ℝ) :=
  jointNames.filterMap (fun n =>
    if omap n then some (n, σ n Axis.x, σ n Axis.y, σ n Axis.z) else none)

/-- One restoration step: if the joint is in objectsByName and was saved, write
back all three rotation components. -/
def restoreStep (omap : String → Bool) (saved : List (String × ℝ × ℝ × ℝ))
    (σ' : JState) (n : String) : JState :=
  if omap n then
    match saved.lookup n with
    | some t => setRot (setRot (setRot σ' n Axis.x t.1) n Axis.y t.2.1) n Axis.z t.2.2
    | none => σ'
  else σ'

/-- Restore the snapshot over all four joint names. -/
def restoreSnapshot (omap : String → Bool) (saved : List (String × ℝ × ℝ × ℝ))
    (σ : JState) : JState :=
  jointNames.foldl (restoreStep omap saved) σ

/-- `setRotation(jointName, axis, value, units)` of ik_debug.js.  `found` is the
combined bones-then-objects lookup; an unknown joint or axis is skipped, and a
degree value is converted to radians before the write. -/
def setRotation (found : String → Bool) (σ : JState) (jointName axis : String)
    (value : ℝ) (units : String) : JState :=
  if found jointName then
    match (if axis = "x" then some Axis.x else if axis = "y" then some Axis.y
        else if axis = "z" then some Axis.z else none) with
    | some a => setRot σ jointName a (if units = "radians" then value else value * DEG2RAD)
    | none => σ
  else σ

/-- `setJointAngles(jointAngles, units)`: iterate the joints object and set
each axis.  A JS `for..in` over `undefined` iterates zero times, so a missing
joints object leaves the state untouched; non-numeric axis values are skipped
here (the source would write NaN). -/
def setJointAngles (found : String → Bool) (σ : JState) (jointAngles : Option Json)
    (units : String) : JState :=
  match jointAngles with
  | some (.obj entries) =>
    entries.foldl (fun σ' e =>
      match e.2 with
      | .obj axes => axes.foldl (fun σ'' a =>
          match a.2 with
          | .num v => setRotation found σ'' e.1 a.1 v units
          | _ => σ'') σ'
      | _ => σ') σ
  | _ => σ

/-- The observable outcome of one goToTargets call: the scene rotation state,
the last-accepted-solve timestamp, and whether the candidate was rejected and
rolled back. -/
structure GoToResult where
  state : JState
  lastSuccessfulIKTime : Option ℤ
  rejected : Bool

/-- `goToTargets(targets, ikOptions, timestamp)`: snapshot, solve, validate
against the raw unweighted distances, roll back past the threshold, otherwise
record the accepted-solve time and fall through to setJointAngles (whose
`cmd.joints` argument is `undefined`, because the solver nests the joints
under `params`). -/
def goToTargets (rig : Rig) (bmap omap : String → Bool) (now : String) (σ : JState)
    (lastOk : Option ℤ) (elbow wrist hand : Vec3) (ikOptions : SolveOptions)
    (timestamp : Option ℤ) : Except String GoToResult :=
  let saved := takeSnapshot omap σ
  match solveCoupled3TargetIKToJson rig now σ ⟨elbow, wrist, hand⟩ ikOptions with
  | .error e => .error e
  | .ok (cmd, σ1) =>
    let units := match jsonLookup cmd "units" with
      | some (.str s) => s
      | _ => "degrees"
    if omap "Elbow_Flex" && omap "Wrist_Flex" && omap "EndEffector" then
      let elbowError := Vec3.distanceTo (rig.pos σ1 "Elbow_Flex") elbow
      let wristError := Vec3.distanceTo (rig.pos σ1 "Wrist_Flex") wrist
      let eeError := Vec3.distanceTo (rig.pos σ1 "EndEffector") hand
      let maxError := max elbowError (max wristError eeError)
      if maxError > MAX_IK_ERROR then
        .ok ⟨restoreSnapshot omap saved σ1, lastOk, true⟩
      else
        .ok ⟨setJointAngles (fun n => bmap n || omap n) σ1 (jsonLookup cmd "joints") units,
          (match timestamp with | some t => some t | none => lastOk), false⟩
    else
      .ok ⟨setJointAngles (fun n => bmap n || omap n) σ1 (jsonLookup cmd "joints") units,
        lastOk, false⟩

/-! ## Snapshot/restore lemmas -/

theorem restoreStep_untouched {omap : String → Bool} {saved : List (String × ℝ × ℝ × ℝ)}
    {σ' : JState} {m n : String} (h : n ≠ m) (a : Axis) :
    restoreStep omap saved σ' m n a = σ' n a := by
  unfold restoreStep
  split_ifs
  · rcases saved.lookup m with _ | t
    · rfl
    · simp only
      rw [setRot_ne h, setRot_ne h, setRot_ne h]
  · rfl

theorem foldl_restore_untouched {omap : String → Bool} {saved : List (String × ℝ × ℝ × ℝ)}
    {n : String} : ∀ (l : List String) (σc : JState), n ∉ l → ∀ a,
      l.foldl (restoreStep omap saved) σc n a = σc n a := by
  intro l
  induction l with
  | nil => intro σc _ a; rfl
  | cons m rest ih =>
    intro σc hn a
    rw [List.foldl_cons, ih _ (fun hr => hn (List.mem_cons_of_mem _ hr)),
      restoreStep_untouched (fun he => hn (by rw [he]; exact List.mem_cons_self _ _)) a]

theorem restoreStep_value {omap : String → Bool} {saved : List (String × ℝ × ℝ × ℝ)}
    {σ' : JState} {n : String} {x y z : ℝ} (ho : omap n = true)
    (hs : saved.lookup n = some (x, y, z)) (a : Axis) :
    restoreStep omap saved σ' n n a =
      (match a with | Axis.x => x | Axis.y => y | Axis.z => z) := by
  unfold restoreStep
  rw [if_pos ho, hs]
  cases a <;> simp [setRot]

theorem foldl_restore_mem {omap : String → Bool} {saved : List (String × ℝ × ℝ × ℝ)}
    {n : String} {x y z : ℝ} (ho : omap n = true) (hs : saved.lookup n = some (x, y, z)) :
    ∀ (l : List String) (σc : JState), l.Nodup → n ∈ l → ∀ a,
      l.foldl (restoreStep omap saved) σc n a =
        (match a with | Axis.x => x | Axis.y => y | Axis.z => z) := by
  intro l
  induction l with
  | nil => intro σc _ h a; cases h
  | cons m rest ih =>
    intro σc hnd hmem a
    rcases List.mem_cons.mp hmem with rfl | hmem'
    · rw [List.foldl_cons,
        foldl_restore_untouched rest _ (List.nodup_cons.mp hnd).1 a,
        restoreStep_value ho hs a]
    · rw [List.foldl_cons]
      exact ih _ (List.nodup_cons.mp hnd).2 hmem' a

theorem filterMap_if_all {α β : Type} (p : α → Bool) (f : α → β) :
    ∀ l : List α, (∀ x ∈ l, p x = true) →
      (l.filterMap (fun x => if p x then some (f x) else none)) = l.map f := by
  intro l
  induction l with
  | nil => intro _; rfl
  | cons a t ih =>
    intro h
    rw [List.filterMap_cons, if_pos (h a (List.mem_cons_self _ _)),
      ih (fun x hx => h x (List.mem_cons_of_mem _ hx)), List.map_cons]

theorem lookup_map_self {β : Type} (f : String → β) :
    ∀ (l : List String) (n : String), n ∈ l →
      (l.map (fun m => (m, f m))).lookup n = some (f n) := by
  intro l
  induction l with
  | nil => intro n h; cases h
  | cons m rest ih =>
    intro n hmem
    rcases List.mem_cons.mp hmem with rfl | hmem'
    · simp [List.lookup]
    · by_cases he : n = m
      · subst he
        simp [List.lookup]
      · rw [List.map_cons, List.lookup, show (n == m) = false from beq_eq_false_iff_ne.mpr he]
        exact ih n hmem'

/-- Rolling back after a solve that only moved the snapshotted joints restores
the pre-solve state exactly. -/
theorem restore_take_exact (omap : String → Bool) (σ σ1 : JState)
    (hall : ∀ n ∈ jointNames, omap n = true)
    (hconf : ∀ n, n ∉ jointNames → ∀ a, σ1 n a = σ n a) :
    restoreSnapshot omap (takeSnapshot omap σ) σ1 = σ := by
  have hsnap : takeSnapshot omap σ =
      jointNames.map (fun n => (n, σ n Axis.x, σ n Axis.y, σ n Axis.z)) :=
    filterMap_if_all omap _ jointNames hall
  funext n a
  by_cases hn : n ∈ jointNames
  · have hlook : (takeSnapshot omap σ).lookup n = some (σ n Axis.x, σ n Axis.y, σ n Axis.z) := by
      rw [hsnap]
      exact lookup_map_self _ jointNames n hn
    unfold restoreSnapshot
    rw [foldl_restore_mem (hall n hn) hlook jointNames σ1 (by decide) hn a]
    cases a <;> rfl
  · unfold restoreSnapshot
    rw [foldl_restore_untouched jointNames σ1 hn a]
    exact hconf n hn a

/-- A successful solve leaves every node outside the configured chain
untouched. -/
theorem solve_confine {rig : Rig} {now : String} {σ : JState} {tg : Targets3}
    {o : SolveOptions} {cmd : Json} {σ1 : JState}
    (h : solveCoupled3TargetIKToJson rig now σ tg o = .ok (cmd, σ1)) :
    ∀ n, (∀ j ∈ o.chain, j.glb ≠ n) → ∀ a, σ1 n a = σ n a := by
  intro n hn a
  obtain ⟨pa, pb, pc, _, _, _, _, hσ, _⟩ := solve_ok_elim h
  rw [hσ]
  exact runIters_confine hn _ _ _

/-- The solver's command keeps everything under "params": top-level lookups of
other keys give undefined. -/
theorem jsonLookup_emit_none {now : String} {joints : List ChainJoint} {σf : JState}
    {k : String} (h1 : k ≠ "method") (h2 : k ≠ "timestamp") (h3 : k ≠ "params") :
    jsonLookup (emit now joints σf) k = none := by
  simp [emit, jsonLookup, List.lookup, beq_eq_false_iff_ne.mpr h1,
    beq_eq_false_iff_ne.mpr h2, beq_eq_false_iff_ne.mpr h3]

/-- A concrete converged solve used by several witnesses. -/
theorem solve_tgZero_eval :
    solveCoupled3TargetIKToJson (constRig Vec3.zero) "t0" σZero tgZero defaultSolveOptions =
      .ok (emit "t0" defaultChain σZero, σZero) := by
  have hconv : residualAt (constRig Vec3.zero) defaultSolveOptions
      defaultSolveOptions.elbowPointName defaultSolveOptions.wristPointName
      defaultSolveOptions.eePointName tgZero σZero < defaultSolveOptions.tolerance := by
    rw [residualAt_tgZero]
    norm_num [defaultSolveOptions]
  rw [constRig_solve_eval, runIters_stop (iterateOnce_converged hconv) _]
  rfl

/-- C1: after a solve, the validator takes the maximum raw unweighted distance
of the three tracked points to their targets; past the fixed 0.6 threshold it
restores every chain angle exactly to the pre-solve snapshot and leaves the
last-accepted timestamp unchanged, otherwise it commits the solved angles and
records the update's timestamp as the last accepted solve time. -/
theorem validator_rollback (rig : Rig) (bmap omap : String → Bool) (now : String)
    (σ : JState) (lastOk : Option ℤ) (elbow wrist hand : Vec3) (o : SolveOptions)
    (t : ℤ) (cmd : Json) (σ1 : JState)
    (hsolve : solveCoupled3TargetIKToJson rig now σ ⟨elbow, wrist, hand⟩ o = .ok (cmd, σ1))
    (hE : omap "Elbow_Flex" = true) (hW : omap "Wrist_Flex" = true)
    (hEE : omap "EndEffector" = true) (hB : omap "Base_Rotation" = true)
    (hS : omap "Shoulder_Lift" = true)
    (hchain : ∀ j ∈ o.chain, j.glb ∈ jointNames) :
    (MAX_IK_ERROR <
        max (Vec3.distanceTo (rig.pos σ1 "Elbow_Flex") elbow)
          (max (Vec3.distanceTo (rig.pos σ1 "Wrist_Flex") wrist)
            (Vec3.distanceTo (rig.pos σ1 "EndEffector") hand)) →
      goToTargets rig bmap omap now σ lastOk elbow wrist hand o (some t) =
        .ok ⟨σ, lastOk, true⟩) ∧
    (¬ MAX_IK_ERROR <
        max (Vec3.distanceTo (rig.pos σ1 "Elbow_Flex") elbow)
          (max (Vec3.distanceTo (rig.pos σ1 "Wrist_Flex") wrist)
            (Vec3.distanceTo (rig.pos σ1 "EndEffector") hand)) →
      goToTargets rig bmap omap now σ lastOk elbow wrist hand o (some t) =
        .ok ⟨σ1, some t, false⟩) := by
  have hall : ∀ n ∈ jointNames, omap n = true := by
    intro n hn
    fin_cases hn <;> assumption
  have hconf : ∀ n, n ∉ jointNames → ∀ a, σ1 n a = σ n a := by
    intro n hn a
    refine solve_confine hsolve n (fun j hj he => hn ?_) a
    rw [← he]
    exact hchain j hj
  have hrestore : restoreSnapshot omap (takeSnapshot omap σ) σ1 = σ :=
    restore_take_exact omap σ σ1 hall hconf
  obtain ⟨pa, pb, pc, _, _, _, _, _, hcmd⟩ := solve_ok_elim hsolve
  have hjoints : jsonLookup cmd "joints" = none := by
    rw [hcmd]
    exact jsonLookup_emit_none (by decide) (by decide) (by decide)
  constructor
  · intro hgt
    simp only [goToTargets, hsolve, hE, hW, hEE, Bool.and_true, Bool.true_and, if_true]
    rw [if_pos hgt, hrestore]
  · intro hle
    simp only [goToTargets, hsolve, hE, hW, hEE, Bool.and_true, Bool.true_and, if_true]
    rw [if_neg hle, hjoints]
    rfl

/-- C1 witness: a concrete accepted solve commits the candidate angles and
records the message timestamp. -/
theorem validator_rollback_witness :
    (¬ MAX_IK_ERROR <
        max (Vec3.distanceTo ((constRig Vec3.zero).pos σZero "Elbow_Flex") Vec3.zero)
          (max (Vec3.distanceTo ((constRig Vec3.zero).pos σZero "Wrist_Flex") Vec3.zero)
            (Vec3.distanceTo ((constRig Vec3.zero).pos σZero "EndEffector") Vec3.zero))) ∧
    goToTargets (constRig Vec3.zero) (fun _ => false) (fun _ => true) "t0" σZero none
        Vec3.zero Vec3.zero Vec3.zero defaultSolveOptions (some 5) =
      .ok ⟨σZero, some 5, false⟩ := by
  have hdz : Vec3.distanceTo Vec3.zero Vec3.zero = 0 := by
    unfold Vec3.distanceTo
    rw [show Vec3.sub Vec3.zero Vec3.zero = Vec3.zero from by
      unfold Vec3.sub Vec3.zero; norm_num, Vec3.length_zero]
  have hle : ¬ MAX_IK_ERROR <
      max (Vec3.distanceTo ((constRig Vec3.zero).pos σZero "Elbow_Flex") Vec3.zero)
        (max (Vec3.distanceTo ((constRig Vec3.zero).pos σZero "Wrist_Flex") Vec3.zero)
          (Vec3.distanceTo ((constRig Vec3.zero).pos σZero "EndEffector") Vec3.zero)) := by
    show ¬ MAX_IK_ERROR < max (Vec3.distanceTo Vec3.zero Vec3.zero)
      (max (Vec3.distanceTo Vec3.zero Vec3.zero) (Vec3.distanceTo Vec3.zero Vec3.zero))
    rw [hdz, max_self, max_self]
    norm_num [MAX_IK_ERROR]
  exact ⟨hle, (validator_rollback (constRig Vec3.zero) (fun _ => false) (fun _ => true)
    "t0" σZero none Vec3.zero Vec3.zero Vec3.zero defaultSolveOptions 5
    (emit "t0" defaultChain σZero) σZero solve_tgZero_eval rfl rfl rfl rfl rfl
    (by decide)).2 hle⟩

/-- C10: when any of the three tracked validation nodes is missing from the
object map, goToTargets applies the candidate angles with no residual check,
no possibility of rollback, and no update of the last-successful-solve time,
whatever the timestamp. -/
theorem missing_validation_nodes (rig : Rig) (bmap omap : String → Bool) (now : String)
    (σ : JState) (lastOk : Option ℤ) (elbow wrist hand : Vec3) (o : SolveOptions)
    (timestamp : Option ℤ) (cmd : Json) (σ1 : JState)
    (hsolve : solveCoupled3TargetIKToJson rig now σ ⟨elbow, wrist, hand⟩ o = .ok (cmd, σ1))
    (hmiss : (omap "Elbow_Flex" && omap "Wrist_Flex" && omap "EndEffector") = false) :
    goToTargets rig bmap omap now σ lastOk elbow wrist hand o timestamp =
      .ok ⟨σ1, lastOk, false⟩ := by
  obtain ⟨pa, pb, pc, _, _, _, _, _, hcmd⟩ := solve_ok_elim hsolve
  have hjoints : jsonLookup cmd "joints" = none := by
    rw [hcmd]
    exact jsonLookup_emit_none (by decide) (by decide) (by decide)
  simp only [goToTargets, hsolve, hmiss, Bool.false_eq_true, if_false]
  rw [hjoints]
  rfl

/-- C10 witness: with EndEffector absent from the object map, a concrete solve
is applied unvalidated and the last-accepted time stays unchanged. -/
theorem missing_validation_nodes_witness :
    (((fun n => if n = "EndEffector" then false else true) "Elbow_Flex" &&
      (fun n => if n = "EndEffector" then false else true) "Wrist_Flex" &&
      (fun n => if n = "EndEffector" then false else true) "EndEffector") = false) ∧
    goToTargets (constRig Vec3.zero) (fun _ => false)
        (fun n => if n = "EndEffector" then false else true) "t0" σZero none
        Vec3.zero Vec3.zero Vec3.zero defaultSolveOptions (some 5) =
      .ok ⟨σZero, none, false⟩ := by
  refine ⟨by decide, ?_⟩
  exact missing_validation_nodes (constRig Vec3.zero) (fun _ => false)
    (fun n => if n = "EndEffector" then false else true) "t0" σZero none
    Vec3.zero Vec3.zero Vec3.zero defaultSolveOptions (some 5)
    (emit "t0" defaultChain σZero) σZero solve_tgZero_eval (by decide)

/-! ## Adaptive scheduling (updateSkeletonLines, ik_debug.js lines 877-1006)

The line-drawing and rendering parts of updateSkeletonLines have no effect on
the scheduling state or the solve and are omitted; the early returns, the
offset computation and the solve decision are modelled in full. -/

/-- `const IK_UPDATE_INTERVAL_MS = 150`. -/
def IK_UPDATE_INTERVAL_MS : ℤ := 150

/-- The module-level scheduler state: last decision-to-run time and last
accepted-solve time (milliseconds). -/
structure SchedState where
  lastIKTimestamp : Option ℤ
  lastSuccessfulIKTime : Option ℤ

/-- The four optional keypoints of one pose update. -/
structure KeypointData where
  shoulder : Option Vec3
  elbow : Option Vec3
  wrist : Option Vec3
  hand : Option Vec3

/-- The base ikOptions object built for each solve call (the three point
names), before the gap-based adjustments. -/
def ikBaseOptions : SolveOptions :=
  { defaultSolveOptions with
    elbowPointName := "Elbow_Flex"
    wristPointName := "Wrist_Flex"
    eePointName := "EndEffector" }

/-- The gap-based option adjustment: over 500 ms since the last accepted solve
raises the budget to 60 iterations with tolerance 0.01; over 200 ms raises it
to 50 iterations. -/
def adjustIKOptions (timeSinceLastSuccessfulIK : ℤ) : SolveOptions :=
  if timeSinceLastSuccessfulIK > 500 then
    { ikBaseOptions with iterations := 60, tolerance := 0.01 }
  else if timeSinceLastSuccessfulIK > 200 then
    { ikBaseOptions with iterations := 50 }
  else ikBaseOptions

/-- The scheduling decision of one update: whether to run, the new
last-attempt timestamp, and the measured gap since the last accepted solve
(0 when either timestamp is unavailable). -/
def ikScheduleDecision (st : SchedState) (timestamp : Option ℤ) : Bool × Option ℤ × ℤ :=
  match timestamp with
  | some currentTime =>
    let timeSinceLastSuccessfulIK : ℤ :=
      match st.lastSuccessfulIKTime with
      | some s => currentTime - s
      | none => 0
    let shouldRunIK : Bool :=
      match st.lastIKTimestamp with
      | some p => decide (IK_UPDATE_INTERVAL_MS ≤ currentTime - p)
      | none => true
    (shouldRunIK, (if shouldRunIK then some currentTime else st.lastIKTimestamp),
     timeSinceLastSuccessfulIK)
  | none => (true, st.lastIKTimestamp, 0)

/-- `updateSkeletonLines(keypointData, timestamp)`: the scheduling/solve slice.
Returns the new scheduler state and, when a solve was attempted, its result. -/
def updateSkeletonLinesStep (rig : Rig) (bmap omap : String → Bool) (σ : JState)
    (st : SchedState) (kp : KeypointData) (timestamp : Option ℤ) (now : String) :
    SchedState × Option (Except String GoToResult) :=
  match kp.shoulder with
  | none => (st, none)
  | some shoulderKp =>
    if bmap "Base" || omap "Base" then
      let baseWorldPos0 := rig.pos σ "Base"
      let offsetX := shoulderKp.x - baseWorldPos0.x
      let offsetY := shoulderKp.y - (baseWorldPos0.y + 0.5)
      let offsetZ := shoulderKp.z - baseWorldPos0.z
      let d := ikScheduleDecision st timestamp
      if d.1 && kp.elbow.isSome && kp.wrist.isSome && kp.hand.isSome then
        match kp.elbow, kp.wrist, kp.hand with
        | some e, some w, some h =>
          let r := goToTargets rig bmap omap now σ st.lastSuccessfulIKTime
            ⟨e.x - offsetX, e.y - offsetY, e.z - offsetZ⟩
            ⟨w.x - offsetX, w.y - offsetY, w.z - offsetZ⟩
            ⟨h.x - offsetX, h.y - offsetY, h.z - offsetZ⟩
            (adjustIKOptions d.2.2) timestamp
          (⟨d.2.1, match r with
            | .ok gr => gr.lastSuccessfulIKTime
            | .error _ => st.lastSuccessfulIKTime⟩, some r)
        | _, _, _ => (⟨d.2.1, st.lastSuccessfulIKTime⟩, none)
      else (⟨d.2.1, st.lastSuccessfulIKTime⟩, none)
    else (st, none)

/-- C6: a timestamped pose update attempts a solve only when at least 150 ms
have elapsed since the last recorded attempt; the solve triggered after a gap
of more than 500 ms since the last accepted solve runs with 60 iterations and
tolerance 0.01, a gap over 200 ms runs with 50 iterations, and otherwise the
default budget applies; a triggered solve really receives the gap-adjusted
options and records the update's timestamp as the new attempt time. -/
theorem adaptive_scheduling :
    (∀ (rig : Rig) (bmap omap : String → Bool) (σ : JState) (st : SchedState)
       (kp : KeypointData) (t p : ℤ) (now : String),
      st.lastIKTimestamp = some p →
      (updateSkeletonLinesStep rig bmap omap σ st kp (some t) now).2.isSome = true →
      IK_UPDATE_INTERVAL_MS ≤ t - p) ∧
    (∀ g : ℤ, 500 < g →
      (adjustIKOptions g).iterations = 60 ∧ (adjustIKOptions g).tolerance = 0.01) ∧
    (∀ g : ℤ, 200 < g → g ≤ 500 →
      (adjustIKOptions g).iterations = 50 ∧
      (adjustIKOptions g).tolerance = defaultSolveOptions.tolerance) ∧
    (∀ g : ℤ, g ≤ 200 →
      (adjustIKOptions g).iterations = defaultSolveOptions.iterations ∧
      (adjustIKOptions g).tolerance = defaultSolveOptions.tolerance) ∧
    (∀ (rig : Rig) (bmap omap : String → Bool) (σ : JState) (st : SchedState)
       (t p s : ℤ) (now : String) (sv e w h : Vec3),
      (bmap "Base" || omap "Base") = true →
      st.lastIKTimestamp = some p → st.lastSuccessfulIKTime = some s →
      IK_UPDATE_INTERVAL_MS ≤ t - p →
      ∃ tA tB tC,
        updateSkeletonLinesStep rig bmap omap σ st ⟨some sv, some e, some w, some h⟩
            (some t) now =
          (⟨some t,
            match goToTargets rig bmap omap now σ (some s) tA tB tC
                (adjustIKOptions (t - s)) (some t) with
              | .ok gr => gr.lastSuccessfulIKTime
              | .error _ => some s⟩,
           some (goToTargets rig bmap omap now σ (some s) tA tB tC
              (adjustIKOptions (t - s)) (some t)))) := by
  refine ⟨?_, ?_, ?_, ?_, ?_⟩
  · intro rig bmap omap σ st kp t p now hp hsome
    unfold updateSkeletonLinesStep at hsome
    cases hsh : kp.shoulder with
    | none => rw [hsh] at hsome; simp at hsome
    | some sv =>
      rw [hsh] at hsome
      split_ifs at hsome with hb
      · by_cases hguard : ((ikScheduleDecision st (some t)).1 && kp.elbow.isSome &&
            kp.wrist.isSome && kp.hand.isSome) = true
        · have hrun : (ikScheduleDecision st (some t)).1 = true := by
            have h1 := (Bool.and_eq_true _ _).mp hguard
            have h2 := (Bool.and_eq_true _ _).mp h1.1
            exact ((Bool.and_eq_true _ _).mp h2.1).1
          unfold ikScheduleDecision at hrun
          rw [hp] at hrun
          exact of_decide_eq_true hrun
        · simp [hguard] at hsome
      · simp at hsome
  · intro g hg
    unfold adjustIKOptions
    rw [if_pos hg]
    exact ⟨rfl, rfl⟩
  · intro g hg1 hg2
    unfold adjustIKOptions
    rw [if_neg (by omega), if_pos hg1]
    exact ⟨rfl, rfl⟩
  · intro g hg
    unfold adjustIKOptions
    rw [if_neg (by omega), if_neg (by omega)]
    exact ⟨rfl, rfl⟩
  · intro rig bmap omap σ st t p s now sv e w h hb hp hs hgap
    have hdec : ikScheduleDecision st (some t) = (true, some t, t - s) := by
      unfold ikScheduleDecision
      rw [hp, hs]
      simp [decide_eq_true hgap]
    refine ⟨⟨e.x - (sv.x - (rig.pos σ "Base").x),
             e.y - (sv.y - ((rig.pos σ "Base").y + 0.5)),
             e.z - (sv.z - (rig.pos σ "Base").z)⟩,
            ⟨w.x - (sv.x - (rig.pos σ "Base").x),
             w.y - (sv.y - ((rig.pos σ "Base").y + 0.5)),
             w.z - (sv.z - (rig.pos σ "Base").z)⟩,
            ⟨h.x - (sv.x - (rig.pos σ "Base").x),
             h.y - (sv.y - ((rig.pos σ "Base").y + 0.5)),
             h.z - (sv.z - (rig.pos σ "Base").z)⟩, ?_⟩
    unfold updateSkeletonLinesStep
    simp only [hb, hdec, hs, Option.isSome_some, Bool.and_true, Bool.true_and,
      eq_self_iff_true, if_true]

/-- C6 witness: a timestamped update 1000 ms after the last attempt and 700 ms
after the last accepted solve triggers a solve with the long-gap budget. -/
theorem adaptive_scheduling_witness :
    (⟨some 0, some 300⟩ : SchedState).lastIKTimestamp = some 0 ∧
    (updateSkeletonLinesStep (constRig Vec3.zero) (fun _ => false) (fun _ => true) σZero
        ⟨some 0, some 300⟩ ⟨some Vec3.zero, some Vec3.zero, some Vec3.zero, some Vec3.zero⟩
        (some 1000) "t0").2.isSome = true ∧
    IK_UPDATE_INTERVAL_MS ≤ 1000 - 0 ∧
    (adjustIKOptions (1000 - 300)).iterations = 60 ∧
    (adjustIKOptions (1000 - 300)).tolerance = 0.01 := by
  obtain ⟨tA, tB, tC, heq⟩ := adaptive_scheduling.2.2.2.2 (constRig Vec3.zero)
    (fun _ => false) (fun _ => true) σZero ⟨some 0, some 300⟩ 1000 0 300 "t0"
    Vec3.zero Vec3.zero Vec3.zero Vec3.zero rfl rfl rfl (by norm_num [IK_UPDATE_INTERVAL_MS])
  have hsome : (updateSkeletonLinesStep (constRig Vec3.zero) (fun _ => false) (fun _ => true)
      σZero ⟨some 0, some 300⟩
      ⟨some Vec3.zero, some Vec3.zero, some Vec3.zero, some Vec3.zero⟩
      (some 1000) "t0").2.isSome = true := by
    rw [heq]
    rfl
  refine ⟨rfl, hsome, ?_, ?_, ?_⟩
  · exact adaptive_scheduling.1 (constRig Vec3.zero) (fun _ => false) (fun _ => true) σZero
      ⟨some 0, some 300⟩ ⟨some Vec3.zero, some Vec3.zero, some Vec3.zero, some Vec3.zero⟩
      1000 0 "t0" rfl hsome
  · exact (adaptive_scheduling.2.1 (1000 - 300) (by norm_num)).1
  · exact (adaptive_scheduling.2.1 (1000 - 300) (by norm_num)).2

/-! ## The older single-target solver (ik_solver_old.js) -/

/-- One entry of the old solver's IK_CHAIN (key, rotation axis, node name). -/
structure OldJoint where
  key : String
  axis : Axis
  objName : String

/-- The old solver's five-joint chain, including Wrist_Roll (lines 8-14). -/
def IK_CHAIN_OLD : List OldJoint :=
  [⟨"Base_Rotation", Axis.y, "Base_Rotation"⟩,
   ⟨"Shoulder_Lift", Axis.x, "Shoulder_Lift"⟩,
   ⟨"Elbow_Flex", Axis.x, "Elbow_Flex"⟩,
   ⟨"Wrist_Flex", Axis.x, "Wrist_Flex"⟩,
   ⟨"Wrist_Roll", Axis.y, "Wrist_Roll"⟩]

/-- The old solver's options with their defaults (lines 97-114).  The default
joint-limit table carries only null entries under lowercase keys, so under the
defaults the limit branch is never taken. -/
structure OldOptions where
  endEffectorName : String := "wrist_roll"
  iterations : ℕ := 30
  tolerance : ℝ := 0.002
  lambda : ℝ := 0.15
  stepScale : ℝ := 0.6
  maxStepRad : ℝ := 0.25
  limitsDeg : List (String × Option (ℝ × ℝ)) :=
    [("base_rotation", none), ("shoulder_lift", none), ("elbow_flex", none),
     ("wrist_flex", none), ("wrist_roll", none)]
  initialGuessDeg : Option (String → Option ℝ) := none

/-- The old solver's options object left entirely at its defaults. -/
def defaultOldOptions : OldOptions := {}

/-- `solveDLS(Jcols, errorVec3, lambda)` (lines 44-81): damped least squares
with an explicit symmetric 3x3 adjugate inverse; a determinant magnitude below
1e-10 yields the all-zero update list. -/
def solveDLS (Jcols : List Vec3) (er : Vec3) (lambda : ℝ) : List ℝ :=
  let a00 := (Jcols.map (fun c => c.x * c.x)).sum + lambda * lambda
  let a01 := (Jcols.map (fun c => c.x * c.y)).sum
  let a02 := (Jcols.map (fun c => c.x * c.z)).sum
  let a11 := (Jcols.map (fun c => c.y * c.y)).sum + lambda * lambda
  let a12 := (Jcols.map (fun c => c.y * c.z)).sum
  let a22 := (Jcols.map (fun c => c.z * c.z)).sum + lambda * lambda
  let b00 := a11 * a22 - a12 * a12
  let b01 := a02 * a12 - a01 * a22
  let b02 := a01 * a12 - a02 * a11
  let b11 := a00 * a22 - a02 * a02
  let b12 := a02 * a01 - a00 * a12
  let b22 := a00 * a11 - a01 * a01
  let det := a00 * b00 + a01 * b01 + a02 * b02
  if |det| < 1e-10 then Jcols.map (fun _ => 0)
  else
    let invDet := 1 / det
    let vx := (b00 * er.x + b01 * er.y + b02 * er.z) * invDet
    let vy := (b01 * er.x + b11 * er.y + b12 * er.z) * invDet
    let vz := (b02 * er.x + b12 * er.y + b22 * er.z) * invDet
    Jcols.map (fun c => c.x * vx + c.y * vy + c.z * vz)

/-- Initialisation of the q array (lines 127-137): each chain entry reads the
current scene rotation unless an initial guess provides its key, in which case
the guess (converted to radians) is taken and written back to the scene. -/
def initQOld (o : OldOptions) (σ : JState) : List (OldJoint × ℝ) × JState :=
  IK_CHAIN_OLD.foldl (fun acc j =>
    match o.initialGuessDeg with
    | some g =>
      match g j.key with
      | some d => (acc.1 ++ [(j, d * DEG2RAD)], setRot acc.2 j.objName j.axis (d * DEG2RAD))
      | none => (acc.1 ++ [(j, acc.2 j.objName j.axis)], acc.2)
    | none => (acc.1 ++ [(j, acc.2 j.objName j.axis)], acc.2)) ([], σ)

/-- One pass of the old solver's iteration loop (lines 142-198): `none` means
the convergence break fired, `some` carries the updated q list and scene state.
The limit clamp applies only when the limits table holds an actual pair under
the chain key. -/
def oldIter (rig : Rig) (tg : Vec3) (o : OldOptions)
    (s : List (OldJoint × ℝ) × JState) : Option (List (OldJoint × ℝ) × JState) :=
  let pe := rig.pos s.2 o.endEffectorName
  let er := Vec3.sub tg pe
  if er.length < o.tolerance then none
  else
    let Jcols := s.1.map (fun jq =>
      Vec3.cross (rig.axisW s.2 jq.1.objName) (Vec3.sub pe (rig.pos s.2 jq.1.objName)))
    let dqs := solveDLS Jcols er o.lambda
    let upd := (s.1.zip dqs).map (fun p =>
      let dq := clamp (p.2 * o.stepScale) (-o.maxStepRad) o.maxStepRad
      let next := p.1.2 + dq
      (p.1.1,
       match o.limitsDeg.lookup p.1.1.key with
       | some (some lim) => clamp next (lim.1 * DEG2RAD) (lim.2 * DEG2RAD)
       | _ => next))
    some (upd, upd.foldl (fun σa jq => setRot σa jq.1.objName jq.1.axis jq.2) s.2)

/-- The old solver's bounded iteration loop. -/
def runItersOld (rig : Rig) (tg : Vec3) (o : OldOptions) :
    ℕ → List (OldJoint × ℝ) × JState → List (OldJoint × ℝ) × JState
  | 0, s => s
  | fuel + 1, s =>
    match oldIter rig tg o s with
    | none => s
    | some s2 => runItersOld rig tg o fuel s2

/-- The old solver's return object (lines 200-212): a bare two-key object
`units` / `joints`, the joint map keyed by chain key with the angle in degrees
rounded to three decimals. -/
def emitOld (qs : List (OldJoint × ℝ)) : Json :=
  .obj [("units", .str "degrees"),
        ("joints", .obj (qs.map (fun jq =>
          (jq.1.key, Json.obj [(jq.1.axis.char, .num (toFixed3 (jq.2 * RAD2DEG)))]))))]

/-- `solveIK3DToJson(root, targetWorldPos, options)` of ik_solver_old.js:
resolve the end effector and every chain node (throwing if one is missing),
initialise q, iterate, and return the units/joints object. -/
def solveIK3DToJson (rig : Rig) (σ : JState) (tg : Vec3) (o : OldOptions) :
    Except String (Json × JState) :=
  if rig.hasNode o.endEffectorName then
    if IK_CHAIN_OLD.all (fun j => rig.hasNode j.objName) then
      let s0 := initQOld o σ
      let s1 := runItersOld rig tg o o.iterations s0
      .ok (emitOld s1.1, s1.2)
    else .error "Joint node not found"
  else .error "End effector node not found"

/-- On the degenerate rig every world position coincides with the zero target,
so the first iteration's convergence break fires whatever the state. -/
theorem oldIter_constRig_zero (s : List (OldJoint × ℝ) × JState) :
    oldIter (constRig Vec3.zero) Vec3.zero defaultOldOptions s = none := by
  unfold oldIter
  rw [if_pos]
  show (Vec3.sub Vec3.zero ((constRig Vec3.zero).pos s.2
      defaultOldOptions.endEffectorName)).length < defaultOldOptions.tolerance
  have : (Vec3.sub Vec3.zero ((constRig Vec3.zero).pos s.2
      defaultOldOptions.endEffectorName)).length = 0 := by
    show (Vec3.sub Vec3.zero Vec3.zero).length = 0
    unfold Vec3.length Vec3.lengthSq Vec3.sub Vec3.zero
    norm_num
  rw [this]
  norm_num [defaultOldOptions]

/-- The old solver run on the degenerate rig with a zero target converges at
iteration zero and returns the initial angles unchanged. -/
theorem solveIK3DToJson_constRig_zero :
    solveIK3DToJson (constRig Vec3.zero) σZero Vec3.zero defaultOldOptions =
      .ok (emitOld (initQOld defaultOldOptions σZero).1, (initQOld defaultOldOptions σZero).2) := by
  have hrun : runItersOld (constRig Vec3.zero) Vec3.zero defaultOldOptions
      defaultOldOptions.iterations (initQOld defaultOldOptions σZero) =
      initQOld defaultOldOptions σZero := by
    show runItersOld (constRig Vec3.zero) Vec3.zero defaultOldOptions (29 + 1)
        (initQOld defaultOldOptions σZero) = initQOld defaultOldOptions σZero
    have hdef : runItersOld (constRig Vec3.zero) Vec3.zero defaultOldOptions (29 + 1)
        (initQOld defaultOldOptions σZero) =
        match oldIter (constRig Vec3.zero) Vec3.zero defaultOldOptions
            (initQOld defaultOldOptions σZero) with
        | none => initQOld defaultOldOptions σZero
        | some s2 => runItersOld (constRig Vec3.zero) Vec3.zero defaultOldOptions 29 s2 := rfl
    rw [hdef, oldIter_constRig_zero]
  unfold solveIK3DToJson
  rw [if_pos (show (constRig Vec3.zero).hasNode defaultOldOptions.endEffectorName = true
      from rfl),
    if_pos (show (IK_CHAIN_OLD.all fun j => (constRig Vec3.zero).hasNode j.objName) = true
      from rfl)]
  show Except.ok (emitOld (runItersOld (constRig Vec3.zero) Vec3.zero defaultOldOptions
      defaultOldOptions.iterations (initQOld defaultOldOptions σZero)).1,
      (runItersOld (constRig Vec3.zero) Vec3.zero defaultOldOptions
      defaultOldOptions.iterations (initQOld defaultOldOptions σZero)).2) = _
  rw [hrun]

/-- The keys of the old solver's return object: no method, no timestamp, no
params wrapper; only units and the joints map. -/
theorem jsonLookup_emitOld (qs : List (OldJoint × ℝ)) :
    jsonLookup (emitOld qs) "method" = none ∧
    jsonLookup (emitOld qs) "timestamp" = none ∧
    jsonLookup (emitOld qs) "params" = none ∧
    jsonLookup (emitOld qs) "units" = some (.str "degrees") ∧
    jsonLookup (emitOld qs) "joints" = some (.obj (qs.map (fun jq =>
      (jq.1.key, Json.obj [(jq.1.axis.char, .num (toFixed3 (jq.2 * RAD2DEG)))])))) := by
  have h1 : (("units" : String) == "method") = false := beq_eq_false_iff_ne.mpr (by decide)
  have h2 : (("joints" : String) == "method") = false := beq_eq_false_iff_ne.mpr (by decide)
  have h3 : (("units" : String) == "timestamp") = false := beq_eq_false_iff_ne.mpr (by decide)
  have h4 : (("joints" : String) == "timestamp") = false := beq_eq_false_iff_ne.mpr (by decide)
  have h5 : (("units" : String) == "params") = false := beq_eq_false_iff_ne.mpr (by decide)
  have h6 : (("joints" : String) == "params") = false := beq_eq_false_iff_ne.mpr (by decide)
  have h7 : (("units" : String) == "joints") = false := beq_eq_false_iff_ne.mpr (by decide)
  refine ⟨?_, ?_, ?_, ?_, ?_⟩ <;>
    simp [emitOld, jsonLookup, List.lookup, h1, h2, h3, h4, h5, h6, h7]

/-- C9 counterexample: the old solver's return object has no method field, no
timestamp, and no params wrapper -- only units and joints -- so it does not
carry the claimed fixed command shape. -/
theorem output_shape_counterexample :
    ∃ cmd σ1,
      solveIK3DToJson (constRig Vec3.zero) σZero Vec3.zero defaultOldOptions =
        .ok (cmd, σ1) ∧
      jsonLookup cmd "method" = none ∧
      jsonLookup cmd "timestamp" = none ∧
      jsonLookup cmd "params" = none ∧
      jsonLookup cmd "units" = some (.str "degrees") := by
  refine ⟨emitOld (initQOld defaultOldOptions σZero).1, (initQOld defaultOldOptions σZero).2,
    solveIK3DToJson_constRig_zero, ?_, ?_, ?_, ?_⟩
  · exact (jsonLookup_emitOld _).1
  · exact (jsonLookup_emitOld _).2.1
  · exact (jsonLookup_emitOld _).2.2.1
  · exact (jsonLookup_emitOld _).2.2.2.1

/-- C9 (amended): the coupled solver and the geometric solver return the full
fixed command shape (method set_joint_angles, the timestamp, params with units
degrees, mode follower and the joints map; the coupled solver appends the
constant gripper z 0 passthrough as the last joints entry, produced by the
emitter, not the solve loop); the old single-target solver instead returns a
bare object holding only units degrees and the joints map. -/
theorem output_command_shape :
    (∀ (rig : Rig) (now : String) (σ : JState) (tg : Targets3) (o : SolveOptions)
       (cmd : Json) (σ1 : JState),
      solveCoupled3TargetIKToJson rig now σ tg o = .ok (cmd, σ1) →
      jsonLookup cmd "method" = some (.str "set_joint_angles") ∧
      jsonLookup cmd "timestamp" = some (.str now) ∧
      ∃ p, jsonLookup cmd "params" = some (.obj p) ∧
        p.lookup "units" = some (.str "degrees") ∧
        p.lookup "mode" = some (.str "follower") ∧
        p.lookup "joints" = some (.obj (o.chain.map (fun j =>
            (j.json, Json.obj [(j.axis.char, Json.num (toFixed3 (σ1 j.glb j.axis * RAD2DEG)))]))
          ++ [("gripper", Json.obj [("z", Json.num 0)])]))) ∧
    (∀ (now : String) (kp : GeoKeypoints) (lim : GeoLimitsDeg) (cmd : GeoCmd),
      calculateJointAnglesFromPose now kp lim = some cmd →
      jsonLookup cmd.toJson "method" = some (.str "set_joint_angles") ∧
      jsonLookup cmd.toJson "timestamp" = some (.str now) ∧
      ∃ p, jsonLookup cmd.toJson "params" = some (.obj p) ∧
        p.lookup "units" = some (.str "degrees") ∧
        p.lookup "mode" = some (.str "follower") ∧
        ∃ l, p.lookup "joints" = some (.obj l)) ∧
    (∀ (rig : Rig) (σ : JState) (tg : Vec3) (o : OldOptions) (cmd : Json) (σ1 : JState),
      solveIK3DToJson rig σ tg o = .ok (cmd, σ1) →
      jsonLookup cmd "method" = none ∧
      jsonLookup cmd "timestamp" = none ∧
      jsonLookup cmd "params" = none ∧
      jsonLookup cmd "units" = some (.str "degrees") ∧
      ∃ l, jsonLookup cmd "joints" = some (.obj l)) := by
  refine ⟨?_, ?_, ?_⟩
  · intro rig now σ tg o cmd σ1 h
    obtain ⟨pa, pb, pc, _, _, _, _, _, hcmd⟩ := solve_ok_elim h
    subst hcmd
    refine ⟨rfl, rfl, _, rfl, rfl, rfl, rfl⟩
  · intro now kp lim cmd h
    obtain ⟨s, e, w, hd⟩ := kp
    cases s with
    | none => simp [calculateJointAnglesFromPose] at h
    | some sv =>
    cases e with
    | none => simp [calculateJointAnglesFromPose] at h
    | some ev =>
    cases w with
    | none => simp [calculateJointAnglesFromPose] at h
    | some wv =>
    cases hd with
    | none => simp [calculateJointAnglesFromPose] at h
    | some hv =>
    simp only [calculateJointAnglesFromPose, Option.some.injEq] at h
    subst h
    exact ⟨rfl, rfl, _, rfl, rfl, rfl, _, rfl⟩
  · intro rig σ tg o cmd σ1 h
    unfold solveIK3DToJson at h
    split_ifs at h with h1 h2
    · cases h
      exact ⟨(jsonLookup_emitOld _).1, (jsonLookup_emitOld _).2.1,
        (jsonLookup_emitOld _).2.2.1, (jsonLookup_emitOld _).2.2.2.1,
        _, (jsonLookup_emitOld _).2.2.2.2⟩

/-- C9 witness: the amended shape statement applied to one concrete run of
each of the three emitters. -/
theorem output_command_shape_witness :
    (solveCoupled3TargetIKToJson (constRig Vec3.zero) "t0" σZero tgZero defaultSolveOptions =
      .ok (emit "t0" defaultChain σZero, σZero) ∧
     jsonLookup (emit "t0" defaultChain σZero) "method" = some (.str "set_joint_angles")) ∧
    (∃ c, calculateJointAnglesFromPose "t1" ⟨some Vec3.zero, some Vec3.zero, some Vec3.zero,
        some Vec3.zero⟩ defaultGeoLimits = some c ∧
      jsonLookup c.toJson "method" = some (.str "set_joint_angles")) ∧
    (solveIK3DToJson (constRig Vec3.zero) σZero Vec3.zero defaultOldOptions =
      .ok (emitOld (initQOld defaultOldOptions σZero).1, (initQOld defaultOldOptions σZero).2) ∧
     jsonLookup (emitOld (initQOld defaultOldOptions σZero).1) "method" = none ∧
     jsonLookup (emitOld (initQOld defaultOldOptions σZero).1) "units" =
       some (.str "degrees")) := by
  have hold := solveIK3DToJson_constRig_zero
  have h3 := output_command_shape.2.2 (constRig Vec3.zero) σZero Vec3.zero defaultOldOptions
    (emitOld (initQOld defaultOldOptions σZero).1) (initQOld defaultOldOptions σZero).2 hold
  have h1 := output_command_shape.1 (constRig Vec3.zero) "t0" σZero tgZero defaultSolveOptions
    (emit "t0" defaultChain σZero) σZero solve_tgZero_eval
  refine ⟨⟨solve_tgZero_eval, h1.1⟩,
    ⟨_, rfl, (output_command_shape.2.1 "t1" ⟨some Vec3.zero, some Vec3.zero, some Vec3.zero,
      some Vec3.zero⟩ defaultGeoLimits _ rfl).1⟩,
    hold, h3.1, h3.2.2.2.1⟩

end

end SOArm
